import Mathlib

/-!
Verification development for the spec-mesh OpenAPI aggregation engine
(`src/schema.py`).  Python documents (parsed JSON/YAML trees) are embedded
as the inductive type `Json`; Python dicts are insertion-ordered association
lists, matching CPython semantics (`d[k] = v` updates in place when the key
exists and appends otherwise).  Python exceptions (KeyError from `dpath.get`
with no default, AttributeError / TypeError from calling dict methods on
non-dicts) are embedded with `Except PyErr`.  The `dpath` library functions
used by the source are embedded with their real semantics: `dpath.get`
without a default raises KeyError when the path does not exist, and
`dpath.set` only assigns to already-existing paths (it never creates keys).
-/

namespace SpecMesh

/-- Embedded Python/JSON value tree.  Object fields are insertion-ordered. -/
inductive Json where
  | null : Json
  | bool (b : Bool) : Json
  | num (n : Int) : Json
  | str (s : String) : Json
  | arr (xs : List Json) : Json
  | obj (fields : List (String × Json)) : Json

/-- Python exception classes raised by the embedded code. -/
inductive PyErr where
  | keyError : PyErr
  | typeError : PyErr
  | attrError : PyErr
deriving DecidableEq

mutual
/-- Python `==` on embedded values (structural equality). -/
def jsonBEq : Json → Json → Bool
  | .null, .null => true
  | .bool a, .bool b => a == b
  | .num a, .num b => a == b
  | .str a, .str b => a == b
  | .arr xs, .arr ys => jsonBEqList xs ys
  | .obj fs, .obj gs => jsonBEqFields fs gs
  | _, _ => false

def jsonBEqList : List Json → List Json → Bool
  | [], [] => true
  | x :: xs, y :: ys => jsonBEq x y && jsonBEqList xs ys
  | _, _ => false

def jsonBEqFields : List (String × Json) → List (String × Json) → Bool
  | [], [] => true
  | (k1, v1) :: fs, (k2, v2) :: gs => k1 == k2 && jsonBEq v1 v2 && jsonBEqFields fs gs
  | _, _ => false
end

instance : BEq Json := ⟨jsonBEq⟩

/-- Python dict lookup on an association list (first binding wins). -/
def lookupJ : List (String × Json) → String → Option Json
  | [], _ => none
  | (k2, v) :: rest, k => if k2 = k then some v else lookupJ rest k

/-- Python `k in d` on an association list. -/
def containsJ (fs : List (String × Json)) (k : String) : Bool :=
  (lookupJ fs k).isSome

/-- Python `d[k] = v`: update in place when the key exists (a real dict
never holds a duplicate key), append at the end otherwise. -/
def insertPy : List (String × Json) → String → Json → List (String × Json)
  | [], k, v => [(k, v)]
  | (k2, w) :: fs, k, v =>
    if k2 = k then (k, v) :: fs else (k2, w) :: insertPy fs k v

/-- Python truthiness of a value (used by `or {}` and `if schema:`). -/
def pyTruthy : Json → Bool
  | .null => false
  | .bool b => b
  | .num n => n != 0
  | .str s => s != ""
  | .arr [] => false
  | .arr (_ :: _) => true
  | .obj [] => false
  | .obj (_ :: _) => true

/-- `v or {}` as used in the source: a falsy value becomes the empty dict. -/
def orEmptyFalsy (v : Json) : Json :=
  if pyTruthy v then v else .obj []

mutual
/-- Python `repr` of a value (only exercised on scalars by the claims). -/
def pyRepr : Json → String
  | .null => "None"
  | .bool b => if b then "True" else "False"
  | .num n => toString n
  | .str s => "'" ++ s ++ "'"
  | .arr xs => "[" ++ String.intercalate ", " (pyReprList xs) ++ "]"
  | .obj fs => "\x7b" ++ String.intercalate ", " (pyReprFields fs) ++ "\x7d"

def pyReprList : List Json → List String
  | [] => []
  | x :: xs => pyRepr x :: pyReprList xs

def pyReprFields : List (String × Json) → List String
  | [] => []
  | (k, v) :: fs => ("'" ++ k ++ "': " ++ pyRepr v) :: pyReprFields fs
end

/-- Python `str` of a value, as interpolated by an f-string. -/
def pyStr : Json → String
  | .null => "None"
  | .bool b => if b then "True" else "False"
  | .num n => toString n
  | .str s => s
  | .arr xs => pyRepr (.arr xs)
  | .obj fs => pyRepr (.obj fs)

/-- Python `.lower()` (ASCII case folding, which covers content types). -/
def strLower (s : String) : String := String.mk (s.data.map Char.toLower)

/-- Bool test: `small` occurs as a contiguous run of `big` (Python `in` on str). -/
def listLeadsB : List Char → List Char → Bool
  | [], _ => true
  | _ :: _, [] => false
  | a :: as2, b :: bs => a == b && listLeadsB as2 bs

def strContains (hay needle : String) : Bool :=
  (List.range (hay.length + 1)).any (fun i => listLeadsB needle.toList (hay.toList.drop i))

/-- Python `for x in v`: lists yield elements, dicts yield their keys,
strings yield their characters; other values are not iterable. -/
def iterElems : Json → Except PyErr (List Json)
  | .arr xs => .ok xs
  | .obj fs => .ok (fs.map (fun p => Json.str p.1))
  | .str s => .ok (s.toList.map (fun c => Json.str (String.singleton c)))
  | _ => .error .typeError

/-- Python `.items()` / `.values()` access: defined only on dicts. -/
def asItems : Json → Except PyErr (List (String × Json))
  | .obj fs => .ok fs
  | _ => .error .typeError

/-- Python `d.get(k)` (AttributeError on non-dicts, None default). -/
def pyGet (v : Json) (k : String) : Except PyErr Json :=
  match v with
  | .obj fs => .ok ((lookupJ fs k).getD .null)
  | _ => .error .attrError

/-- Python `k in v` for the `if schema and "tags" in schema` guard:
dict membership tests keys, list membership tests elements,
string membership tests substrings; other receivers raise TypeError. -/
def pyIn (k : String) (v : Json) : Except PyErr Bool :=
  match v with
  | .obj fs => .ok (containsJ fs k)
  | .arr xs => .ok (xs.any (fun x => x == Json.str k))
  | .str s => .ok (strContains s k)
  | _ => .error .typeError

/-- Python `v[k]` subscription with a string key (only dicts support it). -/
def pySubscript (v : Json) (k : String) : Except PyErr Json :=
  match v with
  | .obj fs =>
    match lookupJ fs k with
    | some x => .ok x
    | none => .error .keyError
  | _ => .error .typeError

/-- `dpath.get(obj, "k")` with no default: KeyError when the key is absent
(also when the receiver is not a dict, since no path then matches). -/
def dpathGet1 (v : Json) (k : String) : Except PyErr Json :=
  match v with
  | .obj fs =>
    match lookupJ fs k with
    | some x => .ok x
    | none => .error .keyError
  | _ => .error .keyError

/-- `dpath.get(obj, "k1/k2")` with no default. -/
def dpathGet2 (v : Json) (k1 k2 : String) : Except PyErr Json := do
  let w ← dpathGet1 v k1
  dpathGet1 w k2

/-- `dpath.get(obj, "k", default=d)`: the default replaces a missing path,
never a present value. -/
def dpathGet1D (v : Json) (k : String) (d : Json) : Json :=
  match dpathGet1 v k with
  | .ok x => x
  | .error _ => d

/-- `dpath.get(obj, "k1/k2", default=d)`. -/
def dpathGet2D (v : Json) (k1 k2 : String) (d : Json) : Json :=
  match dpathGet2 v k1 k2 with
  | .ok x => x
  | .error _ => d

/-- Top-level key read on a dict (used to express preservation facts). -/
def jsonGetTop (v : Json) (k : String) : Option Json :=
  match v with
  | .obj fs => lookupJ fs k
  | _ => none

/-- `dpath.set(obj, "k", value)`: assigns only when the path already exists;
a missing key or non-dict receiver is left untouched. -/
def jsonSetTop (v : Json) (k : String) (x : Json) : Json :=
  match v with
  | .obj fs => if containsJ fs k then .obj (insertPy fs k x) else .obj fs
  | _ => v

/-- `dpath.set(obj, "k1/k2", value)`: assigns only when the whole path exists. -/
def jsonSetTop2 (v : Json) (k1 k2 : String) (x : Json) : Json :=
  match v with
  | .obj fs =>
    match lookupJ fs k1 with
    | some (.obj gs) =>
      if containsJ gs k2 then .obj (insertPy fs k1 (.obj (insertPy gs k2 x)))
      else .obj fs
    | _ => .obj fs
  | _ => v

/-- Top-level membership on a dict (Python `k in d` in `merge`). -/
def containsTop (v : Json) (k : String) : Bool :=
  match v with
  | .obj fs => containsJ fs k
  | _ => false

/-- Except-valued map, sequencing left to right (Python loop order). -/
def exMap {α β : Type} (f : α → Except PyErr β) : List α → Except PyErr (List β)
  | [] => .ok []
  | x :: xs => do
    let y ← f x
    let ys ← exMap f xs
    pure (y :: ys)

/-- Except-valued left fold, sequencing left to right (Python loop order). -/
def exFoldl {α β : Type} (f : β → α → Except PyErr β) : β → List α → Except PyErr β
  | b, [] => .ok b
  | b, x :: xs => do
    let b2 ← f b x
    exFoldl f b2 xs

/-!
## The Fetcher (`Schema.get_schema`, `Schema.get_schemas`)

An HTTP response is embedded as the data `get_schema` inspects: the
`content-type` header (`response.headers.get("content-type", "")`), the
outcome of `response.json()` and the outcome of `yaml.safe_load(response.text)`.
The HTTP status code is carried so that status-sensitivity can be stated;
the source never reads it.  A network-level failure of `client.get`
(timeout, connection error) is an `Except.error` of the `net` function.
-/

structure HttpResponse where
  status : Nat
  contentTypeHeader : Option String
  jsonResult : Except Unit Json
  yamlResult : Except Unit Json

namespace Schema

/-- `Schema.get_schema` body after the response arrives: content-type
dispatch.  `Except.error` models a parse exception escaping the call;
`.ok none` models the final `return None` for unrecognized content types. -/
def get_schema (r : HttpResponse) : Except Unit (Option Json) :=
  let ct := strLower (r.contentTypeHeader.getD "")
  if strContains ct "vnd.oai.openapi" then
    match r.jsonResult with
    | .ok d => .ok (some d)
    | .error _ => r.yamlResult.map some
  else if strContains ct "json" then r.jsonResult.map some
  else if strContains ct "yaml" then r.yamlResult.map some
  else .ok none

end Schema

/-!
## The Merger (`SchemasMerger`)

`self.schemas` is the list of `(service_name, source, schema)` triples.
The preparation phase of `merge` mutates the operation dicts and tag dicts
of each schema in place (the `.copy()` in `_prepare_server_for_schema` is
shallow, so the original and the prepared document share every nested
structure the code mutates); the embedding threads the prepared documents
explicitly, which yields the same observable contents.
-/

namespace SchemasMerger

/-- Items of `dpath.get(schema, "components/schemas") or {}` with `.items()`. -/
def schemasItemsOf (sch : Json) : Except PyErr (List (String × Json)) := do
  let v ← dpathGet2 sch "components" "schemas"
  asItems (orEmptyFalsy v)

/-- Items of `dpath.get(schema, "paths") or {}` with `.items()`. -/
def pathsItemsOf (sch : Json) : Except PyErr (List (String × Json)) := do
  let v ← dpathGet1 sch "paths"
  asItems (orEmptyFalsy v)

/-- Items of `dpath.get(schema, "components") or {}` with `.items()`. -/
def componentsItemsOf (sch : Json) : Except PyErr (List (String × Json)) := do
  let v ← dpathGet1 sch "components"
  asItems (orEmptyFalsy v)

/-- The collision rule shared by `_merge_schemas` and `_merge_paths`:
a key not yet present is inserted as-is, a colliding key is inserted under
`"<key>_<service_name>"`. -/
def firstWinsStep (serviceName : String) (merged : List (String × Json))
    (items : List (String × Json)) : List (String × Json) :=
  items.foldl (fun m p =>
    if containsJ m p.1 then insertPy m (p.1 ++ "_" ++ serviceName) p.2
    else insertPy m p.1 p.2) merged

/-- One document's contribution in `_merge_schemas`. -/
def schemasStep (m : List (String × Json)) (d : String × Json × Json) :
    Except PyErr (List (String × Json)) := do
  let items ← schemasItemsOf d.2.2
  pure (firstWinsStep d.1 m items)

/-- `SchemasMerger._merge_schemas`. -/
def merge_schemas (schemas : List (String × Json × Json)) :
    Except PyErr (List (String × Json)) :=
  exFoldl schemasStep [] schemas

/-- One document's contribution in `_merge_paths`. -/
def pathsStep (m : List (String × Json)) (d : String × Json × Json) :
    Except PyErr (List (String × Json)) := do
  let items ← pathsItemsOf d.2.2
  pure (firstWinsStep d.1 m items)

/-- `SchemasMerger._merge_paths`. -/
def merge_paths (schemas : List (String × Json × Json)) :
    Except PyErr (List (String × Json)) :=
  exFoldl pathsStep [] schemas

/-- Fields of a value known to be a dict (`merged_components[t]` is always
a dict because the code only ever stores dicts there). -/
def objFieldsD : Json → List (String × Json)
  | .obj fs => fs
  | _ => []

/-- One definition inserted into category `ct` of the merged components
(`merged_components[component_type][...] = definition` with the
first-wins/suffix rule). -/
def categoryEntryStep (serviceName ct : String) (m2 : List (String × Json))
    (q : String × Json) : List (String × Json) :=
  let gs := objFieldsD ((lookupJ m2 ct).getD (.obj []))
  if containsJ gs q.1 then
    insertPy m2 ct (.obj (insertPy gs (q.1 ++ "_" ++ serviceName) q.2))
  else insertPy m2 ct (.obj (insertPy gs q.1 q.2))

/-- Body of the `_merge_components` loop for one category of one document:
ensure the category key exists, then (only when the category data is a
dict) insert each definition with the first-wins/suffix rule. -/
def mergeComponentsCategory (serviceName : String)
    (m : List (String × Json)) (p : String × Json) : List (String × Json) :=
  if p.1 = "schemas" then m
  else
    let m1 := if containsJ m p.1 then m else insertPy m p.1 (.obj [])
    match p.2 with
    | .obj entries => entries.foldl (categoryEntryStep serviceName p.1) m1
    | _ => m1

/-- One document's contribution in `_merge_components`. -/
def componentsStep (m : List (String × Json)) (d : String × Json × Json) :
    Except PyErr (List (String × Json)) := do
  let comps ← componentsItemsOf d.2.2
  pure (comps.foldl (mergeComponentsCategory d.1) m)

/-- `SchemasMerger._merge_components`. -/
def merge_components (schemas : List (String × Json × Json)) :
    Except PyErr (List (String × Json)) :=
  exFoldl componentsStep [] schemas

/-- `any(server.get("url") == url for server in operation["servers"])`.
Iterating a non-dict entry's `.get` raises AttributeError; `any` stops at
the first match. -/
def serverExists (url : Json) : List Json → Except PyErr Bool
  | [] => .ok false
  | s :: rest =>
    match s with
    | .obj fs =>
      if jsonBEq ((lookupJ fs "url").getD .null) url then .ok true
      else serverExists url rest
    | _ => .error .attrError

/-- `if "servers" not in operation: operation["servers"] = []`. -/
def ensureServers (fs : List (String × Json)) : List (String × Json) :=
  if containsJ fs "servers" then fs else fs ++ [("servers", .arr [])]

/-- The body of `_prepare_server_for_schema` for one operation value:
non-dict operations are skipped; dict operations get a `servers` list
(created empty when missing) with `{url: url}` appended unless an entry
with that url is present.  A non-list `servers` value always raises
(AttributeError on `.get`/`.append` or TypeError on iteration). -/
def prepareOperation (url : Json) (op : Json) : Except PyErr Json :=
  match op with
  | .obj fs =>
    match (lookupJ (ensureServers fs) "servers").getD .null with
    | .arr servers => do
      let ex ← serverExists url servers
      if ex then pure (.obj (ensureServers fs))
      else pure (.obj (insertPy (ensureServers fs) "servers"
        (.arr (servers ++ [.obj [("url", url)]]))))
    | _ => .error .attrError
  | _ => .ok op

/-- One `(method, operation)` binding after server injection. -/
def prepareOpEntry (url : Json) (q : String × Json) : Except PyErr (String × Json) := do
  let op2 ← prepareOperation url q.2
  pure (q.1, op2)

/-- One `(path, operations)` binding after server injection
(`operations.values()` raises on a non-dict). -/
def preparePathEntry (url : Json) (p : String × Json) : Except PyErr (String × Json) := do
  let ops ← asItems p.2
  let newOps ← exMap (prepareOpEntry url) ops
  pure (p.1, Json.obj newOps)

/-- `SchemasMerger._prepare_server_for_schema`.  The shallow `.copy()`
followed by in-place mutation of the shared operation dicts is embedded by
rebuilding the `paths` value; a falsy `paths` (absent handled by the
KeyError of `dpath.get`) iterates nothing and leaves the schema unchanged. -/
def prepare_server_for_schema (sch : Json) (url : Json) : Except PyErr Json := do
  let pathsVal ← dpathGet1 sch "paths"
  let items ← asItems (orEmptyFalsy pathsVal)
  let newPaths ← exMap (preparePathEntry url) items
  if pyTruthy pathsVal then pure (jsonSetTop sch "paths" (.obj newPaths))
  else pure sch

/-- `tag["name"] = f"{name} | {tag['name']}"` for one element of the
document-wide tags list: item assignment on a non-dict raises, a tag dict
without `"name"` raises KeyError. -/
def groupTag (name : String) (t : Json) : Except PyErr Json :=
  match t with
  | .obj fs =>
    match lookupJ fs "name" with
    | some v => .ok (.obj (insertPy fs "name" (.str (name ++ " | " ++ pyStr v))))
    | none => .error .keyError
  | _ => .error .typeError

/-- The inner loop of `_prepare_grouping` over one operation:
`for tag in operation.get("tags", []): operation["tags"] = [f"{name} | {tag}"]`.
The loop iterates the original tags object, so the last element wins; an
empty (or missing) tags list leaves the operation untouched.  `.get` on a
non-dict operation raises AttributeError. -/
def groupOperation (name : String) (op : Json) : Except PyErr Json :=
  match op with
  | .obj fs => do
    let elems ← iterElems ((lookupJ fs "tags").getD (.arr []))
    match elems.getLast? with
    | none => .ok op
    | some t =>
      .ok (.obj (insertPy fs "tags" (.arr [.str (name ++ " | " ++ pyStr t)])))
  | _ => .error .attrError

/-- One `(method, operation)` binding after tag grouping. -/
def groupOpEntry (name : String) (q : String × Json) : Except PyErr (String × Json) := do
  let op2 ← groupOperation name q.2
  pure (q.1, op2)

/-- One `(path, operations)` binding after tag grouping. -/
def groupPathEntry (name : String) (p : String × Json) : Except PyErr (String × Json) := do
  let ops ← asItems p.2
  let newOps ← exMap (groupOpEntry name) ops
  pure (p.1, Json.obj newOps)

/-- The document-wide-tags phase of `_prepare_grouping`: tags are fetched
with `dpath.get(..., default=[])`, mutated element-wise in place, and
written back with `dpath.set` (a no-op when the key is absent, in which
case the default `[]` was iterated and nothing changed). -/
def prepareGroupingTags (sch : Json) (name : String) : Except PyErr Json :=
  match jsonGetTop sch "tags" with
  | none => pure sch
  | some tv => do
    let elems ← iterElems tv
    let newElems ← exMap (groupTag name) elems
    match tv with
    | .arr _ => pure (jsonSetTop sch "tags" (.arr newElems))
    | _ => pure sch

/-- The per-operation phase of `_prepare_grouping`: every operation's tags
are collapsed, and `paths` is written back with `dpath.set`. -/
def prepareGroupingPaths (s1 : Json) (name : String) : Except PyErr Json :=
  match jsonGetTop s1 "paths" with
  | none => pure s1
  | some pv => do
    let items ← asItems pv
    let newPaths ← exMap (groupPathEntry name) items
    pure (jsonSetTop s1 "paths" (.obj newPaths))

/-- `SchemasMerger._prepare_grouping`. -/
def prepare_grouping (sch : Json) (name : String) : Except PyErr Json := do
  let s1 ← prepareGroupingTags sch name
  prepareGroupingPaths s1 name

/-- The preparation loop body of `merge` for one triple: a `None` schema is
skipped with a warning; otherwise the server-injection transform runs with
`source.get("url")`, then the grouping transform when grouping is enabled.
The in-place mutation makes the prepared document the one later merged. -/
def prepGroupIf (grouping : Bool) (s1 : Json) (name : String) :
    Except PyErr Json :=
  if grouping then prepare_grouping s1 name else pure s1

def prepOne (grouping : Bool) (d : String × Json × Json) :
    Except PyErr (String × Json × Json) :=
  match d.2.2 with
  | .null => .ok d
  | sch => do
    let url ← pyGet d.2.1 "url"
    let s1 ← prepare_server_for_schema sch url
    let s2 ← prepGroupIf grouping s1 d.1
    pure (d.1, d.2.1, s2)

/-- `all_tags` accumulation in `merge` (grouping enabled):
`if schema and "tags" in schema: all_tags.extend(schema["tags"])`. -/
def allTags (prepared : List (String × Json × Json)) : Except PyErr (List Json) :=
  exFoldl (fun acc d =>
      if pyTruthy d.2.2 then do
        let b ← pyIn "tags" d.2.2
        if b then do
          let tv ← pySubscript d.2.2 "tags"
          let elems ← iterElems tv
          pure (acc ++ elems)
        else pure acc
      else pure acc)
    [] prepared

/-- The "build final schema" block of `merge`: copy the first document,
then `dpath.set` `paths`, ensure `components` (a dead letter, since
`dpath.set` cannot create the missing key), set `components/schemas` and
each remaining component category (again only where the path exists). -/
def buildMerged (first : Json) (mp ms : List (String × Json))
    (mc : List (String × Json)) : Json :=
  let m1 := jsonSetTop first "paths" (.obj mp)
  let m2 := if containsTop m1 "components" then m1
    else jsonSetTop m1 "components" (.obj [])
  let m3 := jsonSetTop2 m2 "components" "schemas" (.obj ms)
  mc.foldl (fun m p => jsonSetTop2 m "components" p.1 p.2) m3

/-- Configured title with its literal fallback
(`dpath.get(config, "settings/title", default="Merged API")`). -/
def cfgTitle (cfg : Json) : Json := dpathGet2D cfg "settings" "title" (.str "Merged API")

def cfgDescription (cfg : Json) : Json := dpathGet2D cfg "settings" "description" (.str "")

def cfgVersion (cfg : Json) : Json := dpathGet2D cfg "settings" "version" (.str "1.0.0")

/-- The metadata block at the end of `merge`: `dpath.set` of
`info/title`, `info/description`, `info/version` (existing paths only). -/
def stampMetadata (cfg : Json) (m : Json) : Json :=
  jsonSetTop2 (jsonSetTop2 (jsonSetTop2 m "info" "title" (cfgTitle cfg))
    "info" "description" (cfgDescription cfg)) "info" "version" (cfgVersion cfg)

/-- The tag-concatenation step of `merge`, which runs only under grouping:
`all_tags` is extended from every truthy prepared document that has a
`tags` key, and written into the merged document with `dpath.set` (a no-op
when the base document has no `tags` key). -/
def mergeTagsIf (grouping : Bool) (prepared : List (String × Json × Json))
    (base : Json) : Except PyErr Json :=
  if grouping then do
    let ts ← allTags prepared
    pure (jsonSetTop base "tags" (.arr ts))
  else pure base

/-- `SchemasMerger.merge`.  `cfg` is the process-wide `config` dict. -/
def merge (cfg : Json) (schemas : List (String × Json × Json))
    (grouping : Bool) : Except PyErr Json :=
  match schemas with
  | [] => .ok (.obj [])
  | _ => do
    let prepared ← exMap (prepOne grouping) schemas
    let mp ← merge_paths prepared
    let ms ← merge_schemas prepared
    let mc ← merge_components prepared
    let first := ((prepared.head?.map (fun d => d.2.2)).getD .null)
    let base := buildMerged first mp ms mc
    let withTags ← mergeTagsIf grouping prepared base
    pure (stampMetadata cfg withTags)

end SchemasMerger

/-!
## Toolkit lemmas about the embedded dict and dpath operations
-/

theorem lookupJ_nil (k : String) : lookupJ [] k = none := rfl

theorem lookupJ_cons (k2 : String) (v : Json) (fs : List (String × Json)) (k : String) :
    lookupJ ((k2, v) :: fs) k = if k2 = k then some v else lookupJ fs k := rfl

theorem lookupJ_append (fs gs : List (String × Json)) (k : String) :
    lookupJ (fs ++ gs) k =
      match lookupJ fs k with
      | some v => some v
      | none => lookupJ gs k := by
  induction fs with
  | nil => simp [lookupJ]
  | cons p rest ih =>
    obtain ⟨k2, v⟩ := p
    by_cases h : k2 = k <;> simp [lookupJ, h, ih]

theorem lookupJ_insertPy_self (fs : List (String × Json)) (k : String) (v : Json) :
    lookupJ (insertPy fs k v) k = some v := by
  induction fs with
  | nil => simp [insertPy, lookupJ]
  | cons p rest ih =>
    obtain ⟨k2, w⟩ := p
    by_cases h : k2 = k <;> simp [insertPy, lookupJ, h, ih]

theorem lookupJ_insertPy_ne (fs : List (String × Json)) (k k2 : String) (v : Json)
    (h : k2 ≠ k) : lookupJ (insertPy fs k v) k2 = lookupJ fs k2 := by
  have hknk2 : ¬(k = k2) := fun hh => h hh.symm
  induction fs with
  | nil => simp [insertPy, lookupJ, hknk2]
  | cons p rest ih =>
    obtain ⟨k3, w⟩ := p
    by_cases h3 : k3 = k
    · subst h3
      simp [insertPy, lookupJ, hknk2]
    · by_cases h4 : k3 = k2 <;> simp [insertPy, lookupJ, h3, h4, h, hknk2, ih]

theorem containsJ_insertPy_self (fs : List (String × Json)) (k : String) (v : Json) :
    containsJ (insertPy fs k v) k = true := by
  unfold containsJ
  rw [lookupJ_insertPy_self]
  rfl

theorem containsJ_insertPy_ne (fs : List (String × Json)) (k k2 : String) (v : Json)
    (h : k2 ≠ k) : containsJ (insertPy fs k v) k2 = containsJ fs k2 := by
  unfold containsJ
  rw [lookupJ_insertPy_ne fs k k2 v h]

theorem containsJ_of_lookupJ_some {fs : List (String × Json)} {k : String} {v : Json}
    (h : lookupJ fs k = some v) : containsJ fs k = true := by
  unfold containsJ
  rw [h]
  rfl

theorem lookupJ_eq_none_of_containsJ_false {fs : List (String × Json)} {k : String}
    (h : containsJ fs k = false) : lookupJ fs k = none := by
  unfold containsJ at h
  cases hl : lookupJ fs k with
  | some w => rw [hl] at h; simp at h
  | none => rfl

theorem insertPy_insertPy_same (fs : List (String × Json)) (k : String) (v w : Json) :
    insertPy (insertPy fs k v) k w = insertPy fs k w := by
  induction fs with
  | nil => simp [insertPy]
  | cons p rest ih =>
    obtain ⟨k2, u⟩ := p
    by_cases h : k2 = k <;> simp [insertPy, h, ih]

theorem jsonGetTop_jsonSetTop_ne (s : Json) (k k2 : String) (v : Json) (h : k2 ≠ k) :
    jsonGetTop (jsonSetTop s k v) k2 = jsonGetTop s k2 := by
  cases s <;> simp [jsonSetTop, jsonGetTop]
  case obj fs =>
    by_cases hc : containsJ fs k = true
    · simp [hc, lookupJ_insertPy_ne fs k k2 v h]
    · simp [hc]

theorem jsonGetTop_jsonSetTop_self (s : Json) (k : String) (v : Json)
    (h : containsTop s k = true) : jsonGetTop (jsonSetTop s k v) k = some v := by
  cases s <;> simp [containsTop] at h
  case obj fs =>
    simp [jsonSetTop, jsonGetTop, h, lookupJ_insertPy_self]

theorem jsonGetTop_jsonSetTop2_ne (s : Json) (k1 k2 k3 : String) (v : Json)
    (h : k3 ≠ k1) : jsonGetTop (jsonSetTop2 s k1 k2 v) k3 = jsonGetTop s k3 := by
  cases s <;> simp [jsonSetTop2, jsonGetTop]
  case obj fs =>
    cases hl : lookupJ fs k1 with
    | none => simp
    | some w =>
      cases w <;> simp
      case obj gs =>
        by_cases hc : containsJ gs k2 = true
        · simp [hc, lookupJ_insertPy_ne fs k1 k3 _ h]
        · simp [hc]

theorem jsonGetTop_jsonSetTop2_self (s : Json) (k1 k2 : String) (v : Json)
    (gs : List (String × Json)) (h1 : jsonGetTop s k1 = some (.obj gs))
    (h2 : containsJ gs k2 = true) :
    jsonGetTop (jsonSetTop2 s k1 k2 v) k1 = some (.obj (insertPy gs k2 v)) := by
  cases s <;> simp [jsonGetTop] at h1
  case obj fs =>
    simp [jsonSetTop2, h1, h2, jsonGetTop, lookupJ_insertPy_self]

theorem containsTop_eq_isSome (s : Json) (k : String) :
    containsTop s k = (jsonGetTop s k).isSome := by
  cases s <;> simp [containsTop, jsonGetTop, containsJ]

theorem exFoldl_cons {α β : Type} (f : β → α → Except PyErr β) (b : β) (x : α)
    (xs : List α) :
    exFoldl f b (x :: xs) = (f b x >>= fun b2 => exFoldl f b2 xs) := rfl

theorem okBind {α β : Type} (a : α) (f : α → Except PyErr β) :
    ((Except.ok a : Except PyErr α) >>= f) = f a := rfl

/-! Inversion lemmas for `Except` binds produced by `do` notation. -/

theorem bindOk {α β : Type} {e : Except PyErr α} {f : α → Except PyErr β} {b : β} :
    (e >>= f) = .ok b ↔ ∃ a, e = .ok a ∧ f a = .ok b := by
  cases e <;> simp [Bind.bind, Except.bind]

theorem bindOkU {α β : Type} {e : Except Unit α} {f : α → Except Unit β} {b : β} :
    (e >>= f) = .ok b ↔ ∃ a, e = .ok a ∧ f a = .ok b := by
  cases e <;> simp [Bind.bind, Except.bind]

theorem pureOk {α : Type} {a b : α} :
    (pure a : Except PyErr α) = .ok b ↔ a = b := by
  simp [Pure.pure, Except.pure]

/-! `exMap` facts. -/

theorem exMap_nil {α β : Type} (f : α → Except PyErr β) : exMap f [] = .ok [] := rfl

theorem exMap_cons {α β : Type} (f : α → Except PyErr β) (x : α) (xs : List α) :
    exMap f (x :: xs) =
      (f x >>= fun y => exMap f xs >>= fun ys => pure (y :: ys)) := rfl

theorem exMap_eq_map_of {α β : Type} (f : α → Except PyErr β) (g : α → β)
    (l : List α) (h : ∀ x ∈ l, f x = .ok (g x)) : exMap f l = .ok (l.map g) := by
  induction l with
  | nil => rfl
  | cons x xs ih =>
    rw [exMap_cons]
    simp only [h x (by simp), ih (fun y hy => h y (by simp [hy]))]
    simp [Bind.bind, Except.bind, Pure.pure, Except.pure]

theorem exMap_id_of {α : Type} (f : α → Except PyErr α) (l : List α)
    (h : ∀ x ∈ l, f x = .ok x) : exMap f l = .ok l := by
  have := exMap_eq_map_of f id l (by simpa using h)
  simpa using this

theorem exMap_ok_rel {α β : Type} (f : α → Except PyErr β) :
    ∀ (l : List α) (l2 : List β), exMap f l = .ok l2 →
      List.Forall₂ (fun a b => f a = .ok b) l l2 := by
  intro l
  induction l with
  | nil =>
    intro l2 h
    simp only [exMap_nil] at h
    cases h
    exact List.Forall₂.nil
  | cons x xs ih =>
    intro l2 h
    rw [exMap_cons] at h
    rcases bindOk.mp h with ⟨y, hy, h2⟩
    rcases bindOk.mp h2 with ⟨ys, hys, h3⟩
    rw [pureOk] at h3
    cases h3
    exact List.Forall₂.cons hy (ih ys hys)

/-! `exFoldl` to a pure fold when every step succeeds pointwise. -/

theorem exFoldl_eq_foldl_of {α β : Type} (f : β → α → Except PyErr β) (g : β → α → β)
    (l : List α) (h : ∀ x ∈ l, ∀ b, f b x = .ok (g b x)) :
    ∀ b : β, exFoldl f b l = .ok (l.foldl g b) := by
  induction l with
  | nil => intro b; rfl
  | cons x xs ih =>
    intro b
    show (do
      let b2 ← f b x
      exFoldl f b2 xs) = _
    rw [h x (by simp) b]
    show exFoldl f (g b x) xs = _
    rw [ih (fun y hy b2 => h y (by simp [hy]) b2)]
    simp

/-! Claim-side descriptions used to state the fetch-layer theorems. -/

/-- `true` on embedded dicts. -/
def isObjB : Json → Bool
  | .obj _ => true
  | _ => false

mutual
theorem jsonBEq_refl : ∀ a : Json, jsonBEq a a = true
  | .null => rfl
  | .bool b => by simp [jsonBEq]
  | .num n => by simp [jsonBEq]
  | .str s => by simp [jsonBEq]
  | .arr xs => jsonBEqList_refl xs
  | .obj fs => jsonBEqFields_refl fs

theorem jsonBEqList_refl : ∀ xs : List Json, jsonBEq (.arr xs) (.arr xs) = true
  | [] => rfl
  | x :: xs => by
    have h1 := jsonBEq_refl x
    have h2 := jsonBEqList_refl xs
    simp only [jsonBEq] at *
    simp [jsonBEqList, h1, h2]

theorem jsonBEqFields_refl : ∀ fs : List (String × Json), jsonBEq (.obj fs) (.obj fs) = true
  | [] => rfl
  | (k, v) :: fs => by
    have h1 := jsonBEq_refl v
    have h2 := jsonBEqFields_refl fs
    simp only [jsonBEq] at *
    simp [jsonBEqFields, h1, h2]
end

/-! Infrastructure for the merge-rule claims. -/

/-- Whether an embedded computation succeeded. -/
def exIsOk {α : Type} : Except PyErr α → Bool
  | .ok _ => true
  | .error _ => false

theorem exIsOk_iff {α : Type} (e : Except PyErr α) :
    exIsOk e = true ↔ ∃ a, e = .ok a := by
  cases e <;> simp [exIsOk]

/-- The path items a document contributes (defined when `pathsItemsOf`
succeeds, which the well-formedness hypotheses guarantee). -/
def pathsItemsD (sch : Json) : List (String × Json) :=
  match SchemasMerger.pathsItemsOf sch with
  | .ok l => l
  | .error _ => []

/-- The component-schema items a document contributes. -/
def schemasItemsD (sch : Json) : List (String × Json) :=
  match SchemasMerger.schemasItemsOf sch with
  | .ok l => l
  | .error _ => []

/-- The component-category items a document contributes. -/
def componentsItemsD (sch : Json) : List (String × Json) :=
  match SchemasMerger.componentsItemsOf sch with
  | .ok l => l
  | .error _ => []

def memB (k : String) : List String → Bool
  | [] => false
  | k2 :: rest => k2 == k || memB k rest

theorem memB_iff (k : String) (l : List String) : memB k l = true ↔ k ∈ l := by
  induction l with
  | nil => simp [memB]
  | cons k2 rest ih =>
    simp only [memB, Bool.or_eq_true, beq_iff_eq, ih, List.mem_cons]
    constructor
    · rintro (h | h)
      · exact Or.inl h.symm
      · exact Or.inr h
    · rintro (h | h)
      · exact Or.inl h.symm
      · exact Or.inr h

theorem memB_false_iff (k : String) (l : List String) : memB k l = false ↔ k ∉ l := by
  rw [← memB_iff]
  cases memB k l <;> simp

/-- No key of `a` occurs in `b`. -/
def disjointB (a b : List String) : Bool :=
  a.all (fun k => !(memB k b))

theorem disjointB_iff (a b : List String) :
    disjointB a b = true ↔ ∀ k ∈ a, k ∉ b := by
  simp [disjointB, List.all_eq_true, memB_false_iff]

def nodupB : List String → Bool
  | [] => true
  | k :: rest => !(memB k rest) && nodupB rest

theorem nodupB_iff (l : List String) : nodupB l = true ↔ l.Nodup := by
  induction l with
  | nil => simp [nodupB]
  | cons k rest ih => simp [nodupB, memB_false_iff, ih]

/-- Pairwise disjointness of a family of key lists, in order. -/
def pairwiseDisjointB : List (List String) → Bool
  | [] => true
  | l :: rest => rest.all (fun l2 => disjointB l l2) && pairwiseDisjointB rest

theorem pairwiseDisjointB_iff (ls : List (List String)) :
    pairwiseDisjointB ls = true ↔
      List.Pairwise (fun a b => ∀ k ∈ a, k ∉ b) ls := by
  induction ls with
  | nil => simp [pairwiseDisjointB]
  | cons l rest ih =>
    simp [pairwiseDisjointB, List.all_eq_true, disjointB_iff, ih,
      List.pairwise_cons]

theorem lookupJ_none_iff (fs : List (String × Json)) (k : String) :
    lookupJ fs k = none ↔ k ∉ fs.map Prod.fst := by
  induction fs with
  | nil => simp [lookupJ]
  | cons p rest ih =>
    obtain ⟨k2, v⟩ := p
    by_cases h : k2 = k
    · subst h
      simp [lookupJ]
    · have hne : ¬(k = k2) := fun hh => h hh.symm
      simp [lookupJ, h, ih, hne]

theorem containsJ_false_iff (fs : List (String × Json)) (k : String) :
    containsJ fs k = false ↔ k ∉ fs.map Prod.fst := by
  rw [← lookupJ_none_iff]
  unfold containsJ
  cases lookupJ fs k <;> simp

theorem insertPy_of_not_contains (fs : List (String × Json)) (k : String) (v : Json)
    (h : containsJ fs k = false) : insertPy fs k v = fs ++ [(k, v)] := by
  induction fs with
  | nil => simp [insertPy]
  | cons p rest ih =>
    obtain ⟨k2, w⟩ := p
    by_cases h2 : k2 = k
    · exfalso
      rw [containsJ_false_iff] at h
      exact h (by simp [h2])
    · have hrest : containsJ rest k = false := by
        rw [containsJ_false_iff] at h ⊢
        intro hm
        exact h (by simp [hm])
      simp [insertPy, h2, ih hrest]

/-- With fresh, duplicate-free keys the first-wins/suffix rule degenerates
to plain concatenation: no suffixing is triggered. -/
theorem firstWinsStep_disjoint (n : String) :
    ∀ (items m : List (String × Json)),
      nodupB (items.map Prod.fst) = true →
      disjointB (items.map Prod.fst) (m.map Prod.fst) = true →
      SchemasMerger.firstWinsStep n m items = m ++ items := by
  intro items
  induction items with
  | nil => intro m _ _; simp [SchemasMerger.firstWinsStep]
  | cons p rest ih =>
    intro m hnd hdisj
    obtain ⟨k, v⟩ := p
    rw [disjointB_iff] at hdisj
    have hkm : containsJ m k = false := by
      rw [containsJ_false_iff]
      exact hdisj k (by simp)
    have hnd2 : nodupB (rest.map Prod.fst) = true := by
      simp only [List.map_cons, nodupB, Bool.and_eq_true] at hnd
      exact hnd.2
    have hkrest : memB k (rest.map Prod.fst) = false := by
      simp only [List.map_cons, nodupB, Bool.and_eq_true] at hnd
      cases h : memB k (rest.map Prod.fst)
      · rfl
      · rw [h] at hnd; simp at hnd
    have hdisj2 : disjointB (rest.map Prod.fst) ((m ++ [(k, v)]).map Prod.fst) = true := by
      rw [disjointB_iff]
      intro k2 hk2
      simp only [List.map_append, List.map_cons, List.map_nil]
      intro hmem
      rcases List.mem_append.mp hmem with hin | hin
      · exact hdisj k2 (by simp [hk2]) hin
      · simp at hin
        subst hin
        rw [← memB_iff] at hk2
        rw [hk2] at hkrest
        simp at hkrest
    show SchemasMerger.firstWinsStep n
      (if containsJ m k = true then insertPy m (k ++ "_" ++ n) v else insertPy m k v)
      rest = m ++ (k, v) :: rest
    rw [hkm]
    simp only [Bool.false_eq_true, if_false]
    rw [insertPy_of_not_contains m k v hkm]
    rw [ih (m ++ [(k, v)]) hnd2 hdisj2]
    simp

/-- Generic success form of the `_merge_paths` / `_merge_schemas` loops:
when every document's item extraction succeeds, the monadic fold is the
pure fold of the first-wins/suffix rule over the extracted items. -/
theorem exFoldl_fw_gen (itemsOf : Json → Except PyErr (List (String × Json)))
    (itemsD : Json → List (String × Json))
    (hD : ∀ sch l, itemsOf sch = .ok l → itemsD sch = l) :
    ∀ (S : List (String × Json × Json)) (m : List (String × Json)),
      (∀ d ∈ S, exIsOk (itemsOf d.2.2) = true) →
      exFoldl (fun m d => do
          let items ← itemsOf d.2.2
          pure (SchemasMerger.firstWinsStep d.1 m items)) m S =
        .ok (S.foldl (fun m d => SchemasMerger.firstWinsStep d.1 m (itemsD d.2.2)) m) := by
  intro S
  induction S with
  | nil => intro m h; rfl
  | cons d rest ih =>
    intro m h
    obtain ⟨items, hitems⟩ := (exIsOk_iff _).mp (h d (by simp))
    simp only [exFoldl]
    have hstep : (itemsOf d.2.2 >>= fun items =>
        pure (SchemasMerger.firstWinsStep d.1 m items) :
          Except PyErr (List (String × Json))) =
        .ok (SchemasMerger.firstWinsStep d.1 m items) := by
      rw [hitems]
      rfl
    rw [hstep, okBind]
    rw [ih _ (fun e he => h e (by simp [he]))]
    rw [List.foldl_cons, hD d.2.2 items hitems]

/-- Under pairwise-disjoint, duplicate-free key sets the first-wins fold is
plain concatenation of all items in input order. -/
theorem fw_fold_union (f : (String × Json × Json) → List (String × Json)) :
    ∀ (S : List (String × Json × Json)) (m : List (String × Json)),
      (∀ d ∈ S, nodupB ((f d).map Prod.fst) = true) →
      (∀ d ∈ S, disjointB ((f d).map Prod.fst) (m.map Prod.fst) = true) →
      pairwiseDisjointB (S.map (fun d => (f d).map Prod.fst)) = true →
      S.foldl (fun m d => SchemasMerger.firstWinsStep d.1 m (f d)) m =
        S.foldl (fun m d => m ++ f d) m := by
  intro S
  induction S with
  | nil => intro m _ _ _; rfl
  | cons d rest ih =>
    intro m hnd hdisj hpw
    simp only [List.map_cons, pairwiseDisjointB, Bool.and_eq_true,
      List.all_eq_true] at hpw
    obtain ⟨hpwhead, hpwtail⟩ := hpw
    rw [List.foldl_cons, List.foldl_cons]
    rw [firstWinsStep_disjoint d.1 (f d) m (hnd d (by simp)) (hdisj d (by simp))]
    apply ih (m ++ f d) (fun e he => hnd e (by simp [he]))
    · intro e he
      rw [disjointB_iff]
      intro k hk
      simp only [List.map_append, List.mem_append]
      rintro (hin | hin)
      · exact (disjointB_iff _ _).mp (hdisj e (by simp [he])) k hk hin
      · have hdk := hpwhead ((f e).map Prod.fst) (by
          simp only [List.mem_map]
          exact ⟨e, he, rfl⟩)
        exact (disjointB_iff _ _).mp hdk k hin hk
    · exact hpwtail

/-!
## Claim theorems
-/

/-- C9: merging an empty input list returns the empty document `{}`
(the early return in `SchemasMerger.merge`), not an error. -/
theorem C9_merge_empty_input (cfg : Json) (grouping : Bool) :
    SchemasMerger.merge cfg [] grouping = .ok (.obj []) := rfl

/-- C4 counterexample: the claim says an unknown content type is attempted
as JSON first with a YAML fallback, and that a content type containing
`yml` is parsed as YAML.  In the code an unknown content type (here
`text/plain`, with a perfectly parseable JSON body) returns `None`, and a
content type containing `yml` but not `yaml` (here `application/x-yml`,
with a parseable YAML body) also returns `None`. -/
theorem C4_counterexample :
    Schema.get_schema
      ⟨200, some "text/plain", .ok (.obj [("openapi", .str "3.0.0")]), .error ()⟩ =
      .ok none ∧
    Schema.get_schema
      ⟨200, some "application/x-yml", .error (), .ok (.obj [("openapi", .str "3.0.0")])⟩ =
      .ok none := by
  exact ⟨rfl, rfl⟩

/-- C4 (amended): the parse format is determined by the `content-type`
header as the code does it: a value containing the OpenAPI media type
`vnd.oai.openapi` is attempted as JSON, falling back to YAML when the JSON
parse fails; otherwise a value containing `json` is parsed as JSON;
otherwise a value containing `yaml` is parsed as YAML; any other content
type (including `yml` without `yaml`) yields no document. -/
theorem C4_content_type_dispatch (r : HttpResponse) :
    (strContains (strLower (r.contentTypeHeader.getD "")) "vnd.oai.openapi" = true →
      Schema.get_schema r =
        (match r.jsonResult with
         | .ok d => .ok (some d)
         | .error _ => r.yamlResult.map some)) ∧
    (strContains (strLower (r.contentTypeHeader.getD "")) "vnd.oai.openapi" = false →
      strContains (strLower (r.contentTypeHeader.getD "")) "json" = true →
      Schema.get_schema r = r.jsonResult.map some) ∧
    (strContains (strLower (r.contentTypeHeader.getD "")) "vnd.oai.openapi" = false →
      strContains (strLower (r.contentTypeHeader.getD "")) "json" = false →
      strContains (strLower (r.contentTypeHeader.getD "")) "yaml" = true →
      Schema.get_schema r = r.yamlResult.map some) ∧
    (strContains (strLower (r.contentTypeHeader.getD "")) "vnd.oai.openapi" = false →
      strContains (strLower (r.contentTypeHeader.getD "")) "json" = false →
      strContains (strLower (r.contentTypeHeader.getD "")) "yaml" = false →
      Schema.get_schema r = .ok none) := by
  refine ⟨?_, ?_, ?_, ?_⟩ <;> intro h1 <;> simp [Schema.get_schema, h1]
  · intro h2
    simp [h2]
  · intro h2 h3
    simp [h2, h3]
  · intro h2 h3
    simp [h2, h3]

/-- C4 witness: a concrete response with content type `application/json`
takes the JSON branch of the amended dispatch. -/
theorem C4_content_type_dispatch_witness :
    strContains (strLower ("application/json" : String)) "vnd.oai.openapi" = false ∧
    strContains (strLower ("application/json" : String)) "json" = true ∧
    Schema.get_schema ⟨200, some "application/json", .ok (.obj []), .error ()⟩ =
      (Except.ok (.obj []) : Except Unit Json).map some := by
  refine ⟨rfl, rfl, ?_⟩
  exact (C4_content_type_dispatch
    ⟨200, some "application/json", .ok (.obj []), .error ()⟩).2.1 rfl rfl

theorem isObjB_iff (v : Json) : isObjB v = true ↔ ∃ fs, v = Json.obj fs := by
  cases v <;> simp [isObjB]

/-- C8 counterexample: a document with `paths` but no `components` key is
not skipped with a warning; `dpath.get(schema, "components/schemas")` in
`_merge_schemas` raises KeyError and the whole merge aborts instead of
returning a merged document. -/
theorem C8_counterexample :
    SchemasMerger.merge (.obj [])
      [("svc", .obj [("url", .str "http://u")], .obj [("paths", .obj [])])] false =
      .error .keyError := rfl

/-- C8 (amended): a document lacking the structure expected for merging is
not skipped with a warning — the shape error escapes `merge` to the caller.
Four conjuncts, one per case:
1. a document without a `paths` key makes `dpath.get(schema, "paths")`
   raise KeyError inside `_prepare_server_for_schema`;
2. a document (here with an empty `paths` dict and no `tags` key) without a
   `components` key makes `dpath.get(schema, "components/schemas")` raise
   KeyError inside `_merge_schemas`;
3. likewise when `components` exists but has no `schemas` key;
4. even a `None` document, though skipped with a warning by the prepare
   loop (the source here is not even a dict, so `source.get("url")` would
   have raised AttributeError had the loop not skipped it), makes the
   subsequent `_merge_paths` loop raise KeyError, so it too aborts the
   merge.  No per-source shape error is contained. -/
theorem C8_shape_error_escapes :
    (∀ (cfg : Json) (g : Bool) (name : String) (srcFs docFs : List (String × Json)),
      containsJ docFs "paths" = false →
      SchemasMerger.merge cfg [(name, .obj srcFs, .obj docFs)] g =
        .error .keyError) ∧
    (∀ (cfg : Json) (g : Bool) (name : String) (srcFs docFs : List (String × Json)),
      lookupJ docFs "paths" = some (.obj []) →
      containsJ docFs "components" = false →
      containsJ docFs "tags" = false →
      SchemasMerger.merge cfg [(name, .obj srcFs, .obj docFs)] g =
        .error .keyError) ∧
    (∀ (cfg : Json) (g : Bool) (name : String)
      (srcFs docFs compFs : List (String × Json)),
      lookupJ docFs "paths" = some (.obj []) →
      lookupJ docFs "components" = some (.obj compFs) →
      containsJ compFs "schemas" = false →
      containsJ docFs "tags" = false →
      SchemasMerger.merge cfg [(name, .obj srcFs, .obj docFs)] g =
        .error .keyError) ∧
    (∀ (cfg : Json) (g : Bool) (name : String) (src : Json),
      SchemasMerger.merge cfg [(name, src, .null)] g = .error .keyError) := by
  refine ⟨?_, ?_, ?_, ?_⟩
  · intro cfg g name srcFs docFs hp
    have hnp := lookupJ_eq_none_of_containsJ_false hp
    cases g <;>
      simp [SchemasMerger.merge, SchemasMerger.prepOne, SchemasMerger.prepGroupIf,
        SchemasMerger.prepare_server_for_schema, dpathGet1, hnp, pyGet,
        exMap, Bind.bind, Except.bind, Pure.pure, Except.pure]
  · intro cfg g name srcFs docFs hp hnc hnt
    have h2 := lookupJ_eq_none_of_containsJ_false hnc
    have h3 := lookupJ_eq_none_of_containsJ_false hnt
    have hcp : containsJ docFs "paths" = true := containsJ_of_lookupJ_some hp
    have h4 : lookupJ (insertPy docFs "paths" (Json.obj [])) "components" = none := by
      rw [lookupJ_insertPy_ne _ _ _ _ (by decide)]
      exact h2
    cases g
    · simp [SchemasMerger.merge, SchemasMerger.prepOne, SchemasMerger.prepGroupIf,
        SchemasMerger.mergeTagsIf,
        SchemasMerger.prepare_server_for_schema, dpathGet1, hp, h2, h3,
        orEmptyFalsy, pyTruthy, asItems, exMap, exFoldl,
        SchemasMerger.merge_paths, SchemasMerger.merge_schemas,
        SchemasMerger.pathsStep, SchemasMerger.schemasStep,
        SchemasMerger.pathsItemsOf, SchemasMerger.schemasItemsOf, dpathGet2,
        pyGet, Bind.bind, Except.bind, Pure.pure, Except.pure,
        SchemasMerger.firstWinsStep]
    · simp [SchemasMerger.merge, SchemasMerger.prepOne, SchemasMerger.prepGroupIf,
        SchemasMerger.mergeTagsIf,
        SchemasMerger.prepare_server_for_schema, SchemasMerger.prepare_grouping,
        SchemasMerger.prepareGroupingTags, SchemasMerger.prepareGroupingPaths,
        dpathGet1, hp, h2, h3, h4, hcp, jsonGetTop, jsonSetTop,
        lookupJ_insertPy_self, orEmptyFalsy, pyTruthy, asItems, exMap, exFoldl,
        SchemasMerger.merge_paths, SchemasMerger.merge_schemas,
        SchemasMerger.pathsStep, SchemasMerger.schemasStep,
        SchemasMerger.pathsItemsOf, SchemasMerger.schemasItemsOf, dpathGet2,
        pyGet, Bind.bind, Except.bind, Pure.pure, Except.pure,
        SchemasMerger.firstWinsStep]
  · intro cfg g name srcFs docFs compFs hp hcmp hns hnt
    have hns2 := lookupJ_eq_none_of_containsJ_false hns
    have h3 := lookupJ_eq_none_of_containsJ_false hnt
    have hcp : containsJ docFs "paths" = true := containsJ_of_lookupJ_some hp
    have h4 : lookupJ (insertPy docFs "paths" (Json.obj [])) "components" =
        some (.obj compFs) := by
      rw [lookupJ_insertPy_ne _ _ _ _ (by decide)]
      exact hcmp
    cases g
    · simp [SchemasMerger.merge, SchemasMerger.prepOne, SchemasMerger.prepGroupIf,
        SchemasMerger.mergeTagsIf,
        SchemasMerger.prepare_server_for_schema, dpathGet1, hp, hcmp, hns2, h3,
        orEmptyFalsy, pyTruthy, asItems, exMap, exFoldl,
        SchemasMerger.merge_paths, SchemasMerger.merge_schemas,
        SchemasMerger.pathsStep, SchemasMerger.schemasStep,
        SchemasMerger.pathsItemsOf, SchemasMerger.schemasItemsOf, dpathGet2,
        pyGet, Bind.bind, Except.bind, Pure.pure, Except.pure,
        SchemasMerger.firstWinsStep]
    · simp [SchemasMerger.merge, SchemasMerger.prepOne, SchemasMerger.prepGroupIf,
        SchemasMerger.mergeTagsIf,
        SchemasMerger.prepare_server_for_schema, SchemasMerger.prepare_grouping,
        SchemasMerger.prepareGroupingTags, SchemasMerger.prepareGroupingPaths,
        dpathGet1, hp, hcmp, hns2, h3, h4, hcp, jsonGetTop, jsonSetTop,
        lookupJ_insertPy_self, orEmptyFalsy, pyTruthy, asItems, exMap, exFoldl,
        SchemasMerger.merge_paths, SchemasMerger.merge_schemas,
        SchemasMerger.pathsStep, SchemasMerger.schemasStep,
        SchemasMerger.pathsItemsOf, SchemasMerger.schemasItemsOf, dpathGet2,
        pyGet, Bind.bind, Except.bind, Pure.pure, Except.pure,
        SchemasMerger.firstWinsStep]
  · intro cfg g name src
    simp [SchemasMerger.merge, SchemasMerger.prepOne, exMap,
      SchemasMerger.merge_paths, SchemasMerger.pathsStep,
      SchemasMerger.pathsItemsOf, dpathGet1, exFoldl,
      Bind.bind, Except.bind, Pure.pure, Except.pure]

/-- C8 witness: concrete instances of all four conjuncts — a document
without `paths`, one without `components`, one whose `components` lacks
`schemas`, and a `None` document (with a non-dict source, showing the
prepare loop did skip it before the merge loops raised). -/
theorem C8_shape_error_escapes_witness :
    (containsJ [("info", Json.obj [])] "paths" = false ∧
     SchemasMerger.merge (.obj []) [("s1", .obj [("url", .str "http://a")],
       .obj [("info", Json.obj [])])] false = .error .keyError) ∧
    (lookupJ [("paths", Json.obj [])] "paths" = some (.obj []) ∧
     containsJ [("paths", Json.obj [])] "components" = false ∧
     containsJ [("paths", Json.obj [])] "tags" = false ∧
     SchemasMerger.merge (.obj []) [("s2", .obj [("url", .str "http://b")],
       .obj [("paths", Json.obj [])])] true = .error .keyError) ∧
    (lookupJ [("paths", Json.obj []),
        ("components", Json.obj [("responses", Json.obj [])])] "paths" =
        some (.obj []) ∧
     lookupJ [("paths", Json.obj []),
        ("components", Json.obj [("responses", Json.obj [])])] "components" =
        some (.obj [("responses", Json.obj [])]) ∧
     containsJ [("responses", Json.obj [])] "schemas" = false ∧
     containsJ [("paths", Json.obj []),
        ("components", Json.obj [("responses", Json.obj [])])] "tags" = false ∧
     SchemasMerger.merge (.obj []) [("s3", .obj [("url", .str "http://c")],
       .obj [("paths", Json.obj []),
         ("components", Json.obj [("responses", Json.obj [])])])] true =
       .error .keyError) ∧
    SchemasMerger.merge (.obj []) [("s4", .num 5, .null)] true =
      .error .keyError := by
  refine ⟨⟨rfl, ?_⟩, ⟨rfl, rfl, rfl, ?_⟩, ⟨rfl, rfl, rfl, rfl, ?_⟩, ?_⟩
  · exact C8_shape_error_escapes.1 (.obj []) false "s1"
      [("url", .str "http://a")] [("info", Json.obj [])] rfl
  · exact C8_shape_error_escapes.2.1 (.obj []) true "s2"
      [("url", .str "http://b")] [("paths", Json.obj [])] rfl rfl rfl
  · exact C8_shape_error_escapes.2.2.1 (.obj []) true "s3"
      [("url", .str "http://c")]
      [("paths", Json.obj []), ("components", Json.obj [("responses", Json.obj [])])]
      [("responses", Json.obj [])] rfl rfl rfl rfl
  · exact C8_shape_error_escapes.2.2.2 (.obj []) true "s4" (.num 5)

/-- C1: `_merge_paths` iterates documents in input order and applies the
first-wins/suffix rule (a path key not yet present is inserted as-is, a
colliding key is stored under `"<path>_<source_name>"` of the current
document, so the earliest document keeps the bare key); consequently, for
documents with pairwise-disjoint, duplicate-free path sets the merged
paths are exactly the concatenation of all documents' path items with no
suffixing. -/
theorem C1_merge_paths_first_wins (S : List (String × Json × Json))
    (hok : ∀ d ∈ S, exIsOk (SchemasMerger.pathsItemsOf d.2.2) = true) :
    SchemasMerger.merge_paths S =
      .ok (S.foldl (fun m d =>
        SchemasMerger.firstWinsStep d.1 m (pathsItemsD d.2.2)) []) ∧
    (pairwiseDisjointB (S.map (fun d => (pathsItemsD d.2.2).map Prod.fst)) = true →
      (∀ d ∈ S, nodupB ((pathsItemsD d.2.2).map Prod.fst) = true) →
      SchemasMerger.merge_paths S =
        .ok (S.foldl (fun m d => m ++ pathsItemsD d.2.2) [])) := by
  have hD : ∀ sch l, SchemasMerger.pathsItemsOf sch = .ok l → pathsItemsD sch = l := by
    intro sch l h
    simp [pathsItemsD, h]
  have h1 : SchemasMerger.merge_paths S =
      .ok (S.foldl (fun m d =>
        SchemasMerger.firstWinsStep d.1 m (pathsItemsD d.2.2)) []) :=
    exFoldl_fw_gen SchemasMerger.pathsItemsOf pathsItemsD hD S [] hok
  refine ⟨h1, fun hdisj hnd => ?_⟩
  rw [h1]
  rw [fw_fold_union (fun d => pathsItemsD d.2.2) S [] hnd
    (fun d _ => by rw [disjointB_iff]; intro k _ hk; simp at hk) hdisj]

/-- C1 witness: two documents colliding on `/users` plus the disjoint-union
law at two disjoint documents. -/
theorem C1_merge_paths_first_wins_witness :
    ((∀ d ∈ ([("alpha", Json.obj [], Json.obj [("paths", Json.obj
        [("/users", .obj [("get", .obj [])])])]),
      ("beta", Json.obj [], Json.obj [("paths", Json.obj
        [("/users", .obj [("post", .obj [])])])])] : List (String × Json × Json)),
      exIsOk (SchemasMerger.pathsItemsOf d.2.2) = true) ∧
    SchemasMerger.merge_paths
      [("alpha", Json.obj [], Json.obj [("paths", Json.obj
        [("/users", .obj [("get", .obj [])])])]),
       ("beta", Json.obj [], Json.obj [("paths", Json.obj
        [("/users", .obj [("post", .obj [])])])])] =
      .ok [("/users", .obj [("get", .obj [])]),
           ("/users_beta", .obj [("post", .obj [])])]) ∧
    ((∀ d ∈ ([("alpha", Json.obj [], Json.obj [("paths", Json.obj
        [("/a", .obj [])])]),
      ("beta", Json.obj [], Json.obj [("paths", Json.obj
        [("/b", .obj [])])])] : List (String × Json × Json)),
      exIsOk (SchemasMerger.pathsItemsOf d.2.2) = true) ∧
    SchemasMerger.merge_paths
      [("alpha", Json.obj [], Json.obj [("paths", Json.obj [("/a", .obj [])])]),
       ("beta", Json.obj [], Json.obj [("paths", Json.obj [("/b", .obj [])])])] =
      .ok [("/a", .obj []), ("/b", .obj [])]) := by
  constructor
  · constructor
    · intro d hd
      fin_cases hd <;> rfl
    · rw [(C1_merge_paths_first_wins _ (by intro d hd; fin_cases hd <;> rfl)).1]
      rfl
  · constructor
    · intro d hd
      fin_cases hd <;> rfl
    · have h := C1_merge_paths_first_wins
        [("alpha", Json.obj [], Json.obj [("paths", Json.obj [("/a", .obj [])])]),
         ("beta", Json.obj [], Json.obj [("paths", Json.obj [("/b", .obj [])])])]
        (by intro d hd; fin_cases hd <;> rfl)
      rw [h.2 rfl (by intro d hd; fin_cases hd <;> rfl)]
      rfl

/-! Infrastructure for C2: per-category projection of `_merge_components`. -/

/-- The definitions a category value contributes (a non-dict category value
contributes none, matching the `isinstance(component_data, dict)` guard). -/
def entriesOfData : Json → List (String × Json)
  | .obj e => e
  | _ => []

/-- The definitions document `sch` contributes to category `c`. -/
def categoryEntries (sch : Json) (c : String) : List (String × Json) :=
  match lookupJ (componentsItemsD sch) c with
  | some cd => entriesOfData cd
  | none => []

/-- The merged value of component category `c` as the claim describes it:
present when some document has the category, and equal to the first-wins
fold of the documents' contributions to that category alone. -/
def categoryMergeSpec (S : List (String × Json × Json)) (c : String) : Option Json :=
  if S.any (fun d => containsJ (componentsItemsD d.2.2) c) then
    some (.obj (S.foldl (fun g d =>
      SchemasMerger.firstWinsStep d.1 g (categoryEntries d.2.2 c)) []))
  else none

/-- All values of a merged-components map are dicts (an invariant of
`_merge_components`, which only ever stores dicts). -/
def objValuesB (m : List (String × Json)) : Bool :=
  m.all (fun p => isObjB p.2)

theorem firstWinsStep_nil (n : String) (g : List (String × Json)) :
    SchemasMerger.firstWinsStep n g [] = g := rfl

theorem objValuesB_insertPy {m : List (String × Json)} {k : String} {v : Json}
    (hm : objValuesB m = true) (hv : isObjB v = true) :
    objValuesB (insertPy m k v) = true := by
  induction m with
  | nil => simp [insertPy, objValuesB, hv]
  | cons p rest ih =>
    obtain ⟨k2, w⟩ := p
    simp only [objValuesB, List.all_cons, Bool.and_eq_true] at hm
    by_cases h : k2 = k
    · simp [insertPy, h, objValuesB, hv, hm.2]
    · have := ih hm.2
      simp only [objValuesB] at this
      simp [insertPy, h, objValuesB, hm.1, this]

theorem objValuesB_lookup {m : List (String × Json)} {c : String} {v : Json}
    (hm : objValuesB m = true) (hl : lookupJ m c = some v) :
    ∃ gs, v = Json.obj gs := by
  induction m with
  | nil => simp [lookupJ] at hl
  | cons p rest ih =>
    obtain ⟨k2, w⟩ := p
    simp only [objValuesB, List.all_cons, Bool.and_eq_true] at hm
    by_cases h : k2 = c
    · rw [lookupJ_cons, if_pos h] at hl
      cases hl
      exact (isObjB_iff _).mp hm.1
    · rw [lookupJ_cons, if_neg h] at hl
      exact ih hm.2 hl

theorem entriesFold_lookup_ne (n ct c : String) (hne : ct ≠ c) :
    ∀ (entries : List (String × Json)) (m : List (String × Json)),
      lookupJ (entries.foldl (SchemasMerger.categoryEntryStep n ct) m) c =
        lookupJ m c := by
  intro entries
  induction entries with
  | nil => intro m; rfl
  | cons q rest ih =>
    intro m
    rw [List.foldl_cons, ih]
    unfold SchemasMerger.categoryEntryStep
    by_cases hq : containsJ (SchemasMerger.objFieldsD
        ((lookupJ m ct).getD (.obj []))) q.1 = true <;>
      simp [hq, lookupJ_insertPy_ne _ _ _ _ (fun hh : c = ct => hne hh.symm)]

theorem entriesFold_lookup_self (n ct : String) :
    ∀ (entries : List (String × Json)) (m : List (String × Json))
      (gs : List (String × Json)),
      lookupJ m ct = some (.obj gs) →
      lookupJ (entries.foldl (SchemasMerger.categoryEntryStep n ct) m) ct =
        some (.obj (SchemasMerger.firstWinsStep n gs entries)) := by
  intro entries
  induction entries with
  | nil => intro m gs hm; simp [hm, firstWinsStep_nil]
  | cons q rest ih =>
    intro m gs hm
    rw [List.foldl_cons]
    unfold SchemasMerger.categoryEntryStep
    rw [hm]
    simp only [Option.getD_some, SchemasMerger.objFieldsD]
    show _ = some (.obj (SchemasMerger.firstWinsStep n
      (if containsJ gs q.1 = true then insertPy gs (q.1 ++ "_" ++ n) q.2
       else insertPy gs q.1 q.2) rest))
    by_cases hq : containsJ gs q.1 = true
    · rw [if_pos hq, if_pos hq]
      exact ih _ _ (lookupJ_insertPy_self _ _ _)
    · rw [if_neg hq, if_neg hq]
      exact ih _ _ (lookupJ_insertPy_self _ _ _)

theorem entriesFold_objValues (n ct : String) :
    ∀ (entries : List (String × Json)) (m : List (String × Json)),
      objValuesB m = true →
      objValuesB (entries.foldl (SchemasMerger.categoryEntryStep n ct) m) = true := by
  intro entries
  induction entries with
  | nil => intro m hm; exact hm
  | cons q rest ih =>
    intro m hm
    rw [List.foldl_cons]
    apply ih
    unfold SchemasMerger.categoryEntryStep
    by_cases hq : containsJ (SchemasMerger.objFieldsD
        ((lookupJ m ct).getD (.obj []))) q.1 = true
    · rw [if_pos hq]
      exact objValuesB_insertPy hm rfl
    · rw [if_neg hq]
      exact objValuesB_insertPy hm rfl

theorem mcc_lookup_ne (n : String) (m : List (String × Json)) (p : String × Json)
    (c : String) (hne : p.1 ≠ c) :
    lookupJ (SchemasMerger.mergeComponentsCategory n m p) c = lookupJ m c := by
  obtain ⟨ct, cd⟩ := p
  simp only at hne
  unfold SchemasMerger.mergeComponentsCategory
  by_cases hs : ct = "schemas"
  · simp [hs]
  · simp only [hs, if_false]
    have hm1 : lookupJ (if containsJ m ct = true then m
        else insertPy m ct (.obj [])) c = lookupJ m c := by
      by_cases hc : containsJ m ct = true
      · simp [hc]
      · simp [hc, lookupJ_insertPy_ne _ _ _ _ (fun hh : c = ct => hne hh.symm)]
    cases cd <;> simp [entriesFold_lookup_ne n ct c hne, hm1]

theorem mcc_lookup_self (n : String) (m : List (String × Json)) (cd : Json)
    (c : String) (hc : c ≠ "schemas") (hm : objValuesB m = true) :
    lookupJ (SchemasMerger.mergeComponentsCategory n m (c, cd)) c =
      some (.obj (SchemasMerger.firstWinsStep n
        (SchemasMerger.objFieldsD ((lookupJ m c).getD (.obj [])))
        (entriesOfData cd))) := by
  unfold SchemasMerger.mergeComponentsCategory
  simp only [hc, if_false]
  have hgs : ∃ gs, lookupJ (if containsJ m c = true then m
      else insertPy m c (.obj [])) c = some (.obj gs) ∧
      gs = SchemasMerger.objFieldsD ((lookupJ m c).getD (.obj [])) := by
    by_cases hcc : containsJ m c = true
    · simp only [hcc, if_true]
      unfold containsJ at hcc
      cases hl : lookupJ m c with
      | none => rw [hl] at hcc; simp at hcc
      | some v =>
        obtain ⟨gs, rfl⟩ := objValuesB_lookup hm hl
        exact ⟨gs, rfl, by simp [hl, SchemasMerger.objFieldsD]⟩
    · simp only [hcc, Bool.false_eq_true, if_false]
      refine ⟨[], lookupJ_insertPy_self _ _ _, ?_⟩
      have hl := lookupJ_eq_none_of_containsJ_false (by
        cases h : containsJ m c
        · rfl
        · exact absurd h hcc)
      simp [hl, SchemasMerger.objFieldsD]
  obtain ⟨gs, hgs1, hgs2⟩ := hgs
  cases cd with
  | obj entries =>
    simp only [entriesOfData]
    rw [entriesFold_lookup_self n c entries _ gs hgs1, hgs2]
  | null => simpa [entriesOfData, firstWinsStep_nil, hgs2] using hgs1
  | bool b => simpa [entriesOfData, firstWinsStep_nil, hgs2] using hgs1
  | num x => simpa [entriesOfData, firstWinsStep_nil, hgs2] using hgs1
  | str s => simpa [entriesOfData, firstWinsStep_nil, hgs2] using hgs1
  | arr xs => simpa [entriesOfData, firstWinsStep_nil, hgs2] using hgs1

theorem mcc_objValues (n : String) (m : List (String × Json)) (p : String × Json)
    (hm : objValuesB m = true) :
    objValuesB (SchemasMerger.mergeComponentsCategory n m p) = true := by
  obtain ⟨ct, cd⟩ := p
  unfold SchemasMerger.mergeComponentsCategory
  have hm1 : objValuesB (if containsJ m ct = true then m
      else insertPy m ct (.obj [])) = true := by
    by_cases hc : containsJ m ct = true
    · simpa [hc]
    · simp only [hc, Bool.false_eq_true, if_false]
      exact objValuesB_insertPy hm (by simp [isObjB])
  by_cases hs : ct = "schemas"
  · simpa [hs]
  · simp only [hs, if_false]
    cases cd <;> simp [entriesFold_objValues n ct _ _ hm1, hm1]

theorem compsFold_lookup_ne (n c : String) :
    ∀ (comps : List (String × Json)) (m : List (String × Json)),
      memB c (comps.map Prod.fst) = false →
      lookupJ (comps.foldl (SchemasMerger.mergeComponentsCategory n) m) c =
        lookupJ m c := by
  intro comps
  induction comps with
  | nil => intro m _; rfl
  | cons p rest ih =>
    intro m habs
    simp only [List.map_cons, memB, Bool.or_eq_true, beq_iff_eq,
      Bool.or_eq_false_iff] at habs
    rw [List.foldl_cons, ih _ (by
      cases h : memB c (rest.map Prod.fst)
      · rfl
      · rw [h] at habs; simp at habs)]
    exact mcc_lookup_ne n m p c (by
      intro hh
      rw [hh] at habs
      simp at habs)

theorem compsFold_objValues (n : String) :
    ∀ (comps : List (String × Json)) (m : List (String × Json)),
      objValuesB m = true →
      objValuesB (comps.foldl (SchemasMerger.mergeComponentsCategory n) m) = true := by
  intro comps
  induction comps with
  | nil => intro m hm; exact hm
  | cons p rest ih =>
    intro m hm
    rw [List.foldl_cons]
    exact ih _ (mcc_objValues n m p hm)

/-- The effect one document's components have on the merged value of one
category: nothing when the document lacks the category, the first-wins
extension of the current value otherwise. -/
theorem docStep_lookup (n c : String) (hc : c ≠ "schemas") :
    ∀ (comps : List (String × Json)) (m : List (String × Json)),
      nodupB (comps.map Prod.fst) = true →
      objValuesB m = true →
      lookupJ (comps.foldl (SchemasMerger.mergeComponentsCategory n) m) c =
        (match lookupJ comps c with
         | some cd => some (.obj (SchemasMerger.firstWinsStep n
             (SchemasMerger.objFieldsD ((lookupJ m c).getD (.obj [])))
             (entriesOfData cd)))
         | none => lookupJ m c) := by
  intro comps
  induction comps with
  | nil => intro m _ _; rfl
  | cons p rest ih =>
    intro m hnd hm
    obtain ⟨c1, cd1⟩ := p
    simp only [List.map_cons, nodupB, Bool.and_eq_true] at hnd
    by_cases h1 : c1 = c
    · subst h1
      rw [List.foldl_cons]
      rw [compsFold_lookup_ne n c1 rest _ (by
        cases h : memB c1 (rest.map Prod.fst)
        · rfl
        · rw [h] at hnd; simp at hnd)]
      rw [mcc_lookup_self n m cd1 c1 hc hm]
      simp [lookupJ_cons]
    · rw [List.foldl_cons]
      rw [ih _ hnd.2 (mcc_objValues n m _ hm)]
      rw [mcc_lookup_ne n m _ c h1]
      simp [lookupJ_cons, h1]

theorem docStep_lookup_some (n c : String) (hc : c ≠ "schemas")
    (comps m : List (String × Json)) (cd : Json)
    (hnd : nodupB (comps.map Prod.fst) = true)
    (hm : objValuesB m = true) (hl : lookupJ comps c = some cd) :
    lookupJ (comps.foldl (SchemasMerger.mergeComponentsCategory n) m) c =
      some (.obj (SchemasMerger.firstWinsStep n
        (SchemasMerger.objFieldsD ((lookupJ m c).getD (.obj [])))
        (entriesOfData cd))) := by
  have h := docStep_lookup n c hc comps m hnd hm
  rw [hl] at h
  simpa using h

theorem docStep_lookup_none (n c : String) (hc : c ≠ "schemas")
    (comps m : List (String × Json))
    (hnd : nodupB (comps.map Prod.fst) = true)
    (hm : objValuesB m = true) (hl : lookupJ comps c = none) :
    lookupJ (comps.foldl (SchemasMerger.mergeComponentsCategory n) m) c =
      lookupJ m c := by
  have h := docStep_lookup n c hc comps m hnd hm
  rw [hl] at h
  simpa using h

/-- Documents without category `c` leave the claim-side per-category fold
unchanged. -/
theorem specFold_id_of_absent (c : String) :
    ∀ (S : List (String × Json × Json)) (g : List (String × Json)),
      (S.any (fun d => containsJ (componentsItemsD d.2.2) c)) = false →
      S.foldl (fun g d =>
        SchemasMerger.firstWinsStep d.1 g (categoryEntries d.2.2 c)) g = g := by
  intro S
  induction S with
  | nil => intro g _; rfl
  | cons d rest ih =>
    intro g habs
    simp only [List.any_cons, Bool.or_eq_false_iff] at habs
    have hce : categoryEntries d.2.2 c = [] := by
      unfold categoryEntries
      rw [lookupJ_eq_none_of_containsJ_false habs.1]
    rw [List.foldl_cons, hce, firstWinsStep_nil, ih g habs.2]

/-- Main projection: the merged components map, looked up at any category
other than `schemas`, is the claim-side per-category merge continued from
the current accumulator. -/
theorem mergeComponents_lookup (c : String) (hc : c ≠ "schemas") :
    ∀ (S : List (String × Json × Json)) (m : List (String × Json)),
      (∀ d ∈ S, exIsOk (SchemasMerger.componentsItemsOf d.2.2) = true) →
      (∀ d ∈ S, nodupB ((componentsItemsD d.2.2).map Prod.fst) = true) →
      objValuesB m = true →
      ∃ M, exFoldl SchemasMerger.componentsStep m S = .ok M ∧
        objValuesB M = true ∧
        lookupJ M c =
          (if S.any (fun d => containsJ (componentsItemsD d.2.2) c) then
            some (.obj (S.foldl (fun g d =>
              SchemasMerger.firstWinsStep d.1 g (categoryEntries d.2.2 c))
              (SchemasMerger.objFieldsD ((lookupJ m c).getD (.obj [])))))
          else lookupJ m c) := by
  intro S
  induction S with
  | nil =>
    intro m _ _ hm
    exact ⟨m, rfl, hm, by simp⟩
  | cons d rest ih =>
    intro m hok hnd hm
    obtain ⟨comps, hcomps⟩ := (exIsOk_iff _).mp (hok d (by simp))
    have hcompsD : componentsItemsD d.2.2 = comps := by
      simp [componentsItemsD, hcomps]
    have hstep : SchemasMerger.componentsStep m d =
        .ok (comps.foldl (SchemasMerger.mergeComponentsCategory d.1) m) := by
      unfold SchemasMerger.componentsStep
      rw [hcomps]
      rfl
    have hndd : nodupB (comps.map Prod.fst) = true := by
      rw [← hcompsD]
      exact hnd d (by simp)
    have hm2 : objValuesB (comps.foldl
        (SchemasMerger.mergeComponentsCategory d.1) m) = true :=
      compsFold_objValues d.1 comps m hm
    obtain ⟨M, hM1, hM2, hM3⟩ := ih
      (comps.foldl (SchemasMerger.mergeComponentsCategory d.1) m)
      (fun e he => hok e (by simp [he])) (fun e he => hnd e (by simp [he])) hm2
    refine ⟨M, ?_, hM2, ?_⟩
    · rw [exFoldl_cons, hstep, okBind]
      exact hM1
    · rw [hM3]
      by_cases hd : containsJ (componentsItemsD d.2.2) c = true
      · have hdc : containsJ comps c = true := by rw [← hcompsD]; exact hd
        unfold containsJ at hdc
        cases hl : lookupJ comps c with
        | none => rw [hl] at hdc; simp at hdc
        | some cd =>
          rw [docStep_lookup_some d.1 c hc comps m cd hndd hm hl]
          have hany : ((d :: rest).any
              (fun d => containsJ (componentsItemsD d.2.2) c)) = true := by
            simp only [List.any_cons, Bool.or_eq_true]
            exact Or.inl hd
          rw [if_pos hany]
          have hce : categoryEntries d.2.2 c = entriesOfData cd := by
            unfold categoryEntries
            rw [hcompsD, hl]
          rw [List.foldl_cons, hce]
          by_cases hr : (rest.any
              (fun d => containsJ (componentsItemsD d.2.2) c)) = true
          · rw [if_pos hr]
            simp [SchemasMerger.objFieldsD]
          · have hrf : (rest.any
                (fun d => containsJ (componentsItemsD d.2.2) c)) = false := by
              cases h2 : rest.any (fun d => containsJ (componentsItemsD d.2.2) c)
              · rfl
              · exact absurd h2 hr
            rw [if_neg hr]
            rw [specFold_id_of_absent c rest _ hrf]
      · have hdf : containsJ (componentsItemsD d.2.2) c = false := by
          cases h2 : containsJ (componentsItemsD d.2.2) c
          · rfl
          · exact absurd h2 hd
        have hdc : containsJ comps c = false := by rw [← hcompsD]; exact hdf
        rw [docStep_lookup_none d.1 c hc comps m hndd hm
          (lookupJ_eq_none_of_containsJ_false hdc)]
        have hce : categoryEntries d.2.2 c = [] := by
          unfold categoryEntries
          rw [hcompsD, lookupJ_eq_none_of_containsJ_false hdc]
        simp only [List.any_cons, hdf, Bool.false_or]
        rw [List.foldl_cons, hce, firstWinsStep_nil]

/-- C2: `_merge_schemas` merges the `components.schemas` sub-maps with the
first-wins/suffix rule in input order, and `_merge_components` merges every
other component category with the same rule independently per category: the
merged value of any category `c ≠ "schemas"` is present exactly when some
document defines `c`, and equals the first-wins fold of the documents'
contributions to `c` alone (a later document's colliding name is stored as
`"<name>_<source_name>"`). -/
theorem C2_components_first_wins (S : List (String × Json × Json))
    (hok1 : ∀ d ∈ S, exIsOk (SchemasMerger.schemasItemsOf d.2.2) = true)
    (hok2 : ∀ d ∈ S, exIsOk (SchemasMerger.componentsItemsOf d.2.2) = true)
    (hnd : ∀ d ∈ S, nodupB ((componentsItemsD d.2.2).map Prod.fst) = true) :
    SchemasMerger.merge_schemas S =
      .ok (S.foldl (fun m d =>
        SchemasMerger.firstWinsStep d.1 m (schemasItemsD d.2.2)) []) ∧
    (∀ c, c ≠ "schemas" → ∃ M, SchemasMerger.merge_components S = .ok M ∧
      lookupJ M c = categoryMergeSpec S c) := by
  constructor
  · have hD : ∀ sch l, SchemasMerger.schemasItemsOf sch = .ok l →
        schemasItemsD sch = l := by
      intro sch l h
      simp [schemasItemsD, h]
    exact exFoldl_fw_gen SchemasMerger.schemasItemsOf schemasItemsD hD S [] hok1
  · intro c hc
    obtain ⟨M, hM1, _, hM3⟩ := mergeComponents_lookup c hc S [] hok2 hnd rfl
    refine ⟨M, hM1, ?_⟩
    rw [hM3]
    simp [categoryMergeSpec, SchemasMerger.objFieldsD, lookupJ]

/-- C2 witness: two documents both defining component schema `Error` and
both defining response `NotFound`; the first keeps the bare names, the
second's definitions are suffixed with its source name, independently in
the two categories. -/
theorem C2_components_first_wins_witness :
    ((∀ d ∈ ([("alpha", Json.obj [], Json.obj [("components", Json.obj
        [("schemas", .obj [("Error", .obj [("t", .str "a")])]),
         ("responses", .obj [("NotFound", .obj [("d", .str "ra")])])])]),
      ("beta", Json.obj [], Json.obj [("components", Json.obj
        [("schemas", .obj [("Error", .obj [("t", .str "b")])]),
         ("responses", .obj [("NotFound", .obj [("d", .str "rb")])])])])] :
        List (String × Json × Json)),
      exIsOk (SchemasMerger.schemasItemsOf d.2.2) = true ∧
      exIsOk (SchemasMerger.componentsItemsOf d.2.2) = true ∧
      nodupB ((componentsItemsD d.2.2).map Prod.fst) = true) ∧
    SchemasMerger.merge_schemas
      [("alpha", Json.obj [], Json.obj [("components", Json.obj
        [("schemas", .obj [("Error", .obj [("t", .str "a")])]),
         ("responses", .obj [("NotFound", .obj [("d", .str "ra")])])])]),
       ("beta", Json.obj [], Json.obj [("components", Json.obj
        [("schemas", .obj [("Error", .obj [("t", .str "b")])]),
         ("responses", .obj [("NotFound", .obj [("d", .str "rb")])])])])] =
      .ok [("Error", .obj [("t", .str "a")]),
           ("Error_beta", .obj [("t", .str "b")])]) ∧
    (∃ M, SchemasMerger.merge_components
      [("alpha", Json.obj [], Json.obj [("components", Json.obj
        [("schemas", .obj [("Error", .obj [("t", .str "a")])]),
         ("responses", .obj [("NotFound", .obj [("d", .str "ra")])])])]),
       ("beta", Json.obj [], Json.obj [("components", Json.obj
        [("schemas", .obj [("Error", .obj [("t", .str "b")])]),
         ("responses", .obj [("NotFound", .obj [("d", .str "rb")])])])])] =
        .ok M ∧
      lookupJ M "responses" = categoryMergeSpec
        [("alpha", Json.obj [], Json.obj [("components", Json.obj
          [("schemas", .obj [("Error", .obj [("t", .str "a")])]),
           ("responses", .obj [("NotFound", .obj [("d", .str "ra")])])])]),
         ("beta", Json.obj [], Json.obj [("components", Json.obj
          [("schemas", .obj [("Error", .obj [("t", .str "b")])]),
           ("responses", .obj [("NotFound", .obj [("d", .str "rb")])])])])]
        "responses") := by
  refine ⟨⟨?_, ?_⟩, ?_⟩
  · intro d hd
    fin_cases hd <;> exact ⟨rfl, rfl, rfl⟩
  · rw [(C2_components_first_wins
      [("alpha", Json.obj [], Json.obj [("components", Json.obj
        [("schemas", .obj [("Error", .obj [("t", .str "a")])]),
         ("responses", .obj [("NotFound", .obj [("d", .str "ra")])])])]),
       ("beta", Json.obj [], Json.obj [("components", Json.obj
        [("schemas", .obj [("Error", .obj [("t", .str "b")])]),
         ("responses", .obj [("NotFound", .obj [("d", .str "rb")])])])])]
      (by intro d hd; fin_cases hd <;> rfl)
      (by intro d hd; fin_cases hd <;> rfl)
      (by intro d hd; fin_cases hd <;> rfl)).1]
    rfl
  · exact (C2_components_first_wins
      [("alpha", Json.obj [], Json.obj [("components", Json.obj
        [("schemas", .obj [("Error", .obj [("t", .str "a")])]),
         ("responses", .obj [("NotFound", .obj [("d", .str "ra")])])])]),
       ("beta", Json.obj [], Json.obj [("components", Json.obj
        [("schemas", .obj [("Error", .obj [("t", .str "b")])]),
         ("responses", .obj [("NotFound", .obj [("d", .str "rb")])])])])]
      (by intro d hd; fin_cases hd <;> rfl)
      (by intro d hd; fin_cases hd <;> rfl)
      (by intro d hd; fin_cases hd <;> rfl)).2 "responses" (by decide)

/-! Infrastructure for C5: idempotence of the server-injection transform. -/

theorem exMap_mem_right {α β : Type} {f : α → Except PyErr β} :
    ∀ {l : List α} {l2 : List β}, exMap f l = .ok l2 →
      ∀ {b : β}, b ∈ l2 → ∃ a ∈ l, f a = .ok b := by
  intro l
  induction l with
  | nil =>
    intro l2 h b hb
    simp only [exMap] at h
    cases h
    simp at hb
  | cons x xs ih =>
    intro l2 h b hb
    rw [exMap_cons] at h
    rcases bindOk.mp h with ⟨y, hy, h2⟩
    rcases bindOk.mp h2 with ⟨ys, hys, h3⟩
    rw [pureOk] at h3
    cases h3
    rcases List.mem_cons.mp hb with hb1 | hb2
    · exact ⟨x, by simp, hb1 ▸ hy⟩
    · obtain ⟨a, ha, hfa⟩ := ih hys hb2
      exact ⟨a, by simp [ha], hfa⟩

theorem dpathGet1_ok_iff {v : Json} {k : String} {x : Json} :
    dpathGet1 v k = .ok x ↔ ∃ fs, v = .obj fs ∧ lookupJ fs k = some x := by
  cases v with
  | obj fs =>
    cases hl : lookupJ fs k with
    | none => simp [dpathGet1, hl]
    | some w => simp [dpathGet1, hl, eq_comm]
  | null => simp [dpathGet1]
  | bool b => simp [dpathGet1]
  | num n => simp [dpathGet1]
  | str s => simp [dpathGet1]
  | arr xs => simp [dpathGet1]

theorem asItems_ok_iff {v : Json} {l : List (String × Json)} :
    asItems v = .ok l ↔ v = .obj l := by
  cases v <;> simp [asItems, eq_comm]

theorem containsJ_ensureServers (fs : List (String × Json)) :
    containsJ (SchemasMerger.ensureServers fs) "servers" = true := by
  unfold SchemasMerger.ensureServers
  by_cases h : containsJ fs "servers" = true
  · simp [h]
  · simp only [h, Bool.false_eq_true, if_false]
    unfold containsJ
    rw [lookupJ_append]
    rw [lookupJ_eq_none_of_containsJ_false (by
      cases h2 : containsJ fs "servers"
      · rfl
      · exact absurd h2 h)]
    simp [lookupJ]

theorem ensureServers_of_contains {fs : List (String × Json)}
    (h : containsJ fs "servers" = true) : SchemasMerger.ensureServers fs = fs := by
  simp [SchemasMerger.ensureServers, h]

theorem getD_null_arr {o : Option Json} {ss : List Json}
    (h : o.getD .null = .arr ss) : o = some (.arr ss) := by
  cases o with
  | none => simp at h
  | some v => simpa using h

theorem serverExists_append_self (url : Json) :
    ∀ ss : List Json, SchemasMerger.serverExists url ss = .ok false →
      SchemasMerger.serverExists url (ss ++ [.obj [("url", url)]]) = .ok true := by
  intro ss
  induction ss with
  | nil =>
    intro _
    simp [SchemasMerger.serverExists, lookupJ, jsonBEq_refl url]
  | cons s rest ih =>
    intro h
    cases s with
    | obj fs =>
      simp only [SchemasMerger.serverExists] at h ⊢
      by_cases hb : jsonBEq ((lookupJ fs "url").getD .null) url = true
      · rw [if_pos hb] at h
        cases h
      · rw [if_neg hb] at h ⊢
        exact ih h
    | null => simp [SchemasMerger.serverExists] at h
    | bool b => simp [SchemasMerger.serverExists] at h
    | num n => simp [SchemasMerger.serverExists] at h
    | str s => simp [SchemasMerger.serverExists] at h
    | arr xs => simp [SchemasMerger.serverExists] at h

theorem prepareOperation_idem (url op op2 : Json)
    (h : SchemasMerger.prepareOperation url op = .ok op2) :
    SchemasMerger.prepareOperation url op2 = .ok op2 := by
  cases op with
  | obj fs =>
    simp only [SchemasMerger.prepareOperation] at h
    cases hl : (lookupJ (SchemasMerger.ensureServers fs) "servers").getD .null with
    | arr servers =>
      rw [hl] at h
      rcases bindOk.mp h with ⟨ex, hex, hif⟩
      have hlookup : lookupJ (SchemasMerger.ensureServers fs) "servers" =
          some (.arr servers) := getD_null_arr hl
      cases ex with
      | true =>
        rw [if_pos rfl] at hif
        rw [pureOk] at hif
        subst hif
        simp only [SchemasMerger.prepareOperation]
        rw [ensureServers_of_contains (containsJ_ensureServers fs), hlookup]
        simp only [Option.getD_some]
        rw [hex]
        rfl
      | false =>
        rw [if_neg (by simp)] at hif
        rw [pureOk] at hif
        subst hif
        simp only [SchemasMerger.prepareOperation]
        have hc2 : containsJ (insertPy (SchemasMerger.ensureServers fs) "servers"
            (.arr (servers ++ [.obj [("url", url)]]))) "servers" = true :=
          containsJ_insertPy_self _ _ _
        rw [ensureServers_of_contains hc2]
        rw [lookupJ_insertPy_self]
        simp only [Option.getD_some]
        rw [serverExists_append_self url servers hex]
        rfl
    | null => rw [hl] at h; cases h
    | bool b => rw [hl] at h; cases h
    | num n => rw [hl] at h; cases h
    | str s => rw [hl] at h; cases h
    | obj gs => rw [hl] at h; cases h
  | null =>
    cases h
    rfl
  | bool b =>
    cases h
    rfl
  | num n =>
    cases h
    rfl
  | str s =>
    cases h
    rfl
  | arr xs =>
    cases h
    rfl

theorem prepareOpEntry_idem (url : Json) (q q2 : String × Json)
    (h : SchemasMerger.prepareOpEntry url q = .ok q2) :
    SchemasMerger.prepareOpEntry url q2 = .ok q2 := by
  unfold SchemasMerger.prepareOpEntry at h ⊢
  rcases bindOk.mp h with ⟨op2, hop, hp⟩
  rw [pureOk] at hp
  subst hp
  rw [prepareOperation_idem url q.2 op2 hop]
  rfl

theorem preparePathEntry_idem (url : Json) (p p2 : String × Json)
    (h : SchemasMerger.preparePathEntry url p = .ok p2) :
    SchemasMerger.preparePathEntry url p2 = .ok p2 := by
  unfold SchemasMerger.preparePathEntry at h ⊢
  rcases bindOk.mp h with ⟨ops, hops, h2⟩
  rcases bindOk.mp h2 with ⟨newOps, hnew, h3⟩
  rw [pureOk] at h3
  subst h3
  simp only [asItems, okBind]
  rw [exMap_id_of (SchemasMerger.prepareOpEntry url) newOps (by
    intro q hq
    obtain ⟨a, _, hfa⟩ := exMap_mem_right hnew hq
    exact prepareOpEntry_idem url a q hfa)]
  rfl

theorem exMap_ok_ne_nil {α β : Type} {f : α → Except PyErr β} {x : α} {xs : List α}
    {l2 : List β} (h : exMap f (x :: xs) = .ok l2) : l2 ≠ [] := by
  rw [exMap_cons] at h
  rcases bindOk.mp h with ⟨y, _, h2⟩
  rcases bindOk.mp h2 with ⟨ys, _, h3⟩
  rw [pureOk] at h3
  subst h3
  simp

/-- C5: origin stamping is idempotent — a second application of
`_prepare_server_for_schema` with the same url returns its input unchanged
— and `{url: U}` is appended to an operation's servers list exactly when no
entry with that url is already present. -/
theorem C5_server_stamping_idempotent :
    (∀ (sch url sch2 : Json),
      SchemasMerger.prepare_server_for_schema sch url = .ok sch2 →
      SchemasMerger.prepare_server_for_schema sch2 url = .ok sch2) ∧
    (∀ (url : Json) (fs : List (String × Json)) (servers : List Json),
      lookupJ fs "servers" = some (.arr servers) →
      (SchemasMerger.serverExists url servers = .ok true →
        SchemasMerger.prepareOperation url (.obj fs) = .ok (.obj fs)) ∧
      (SchemasMerger.serverExists url servers = .ok false →
        SchemasMerger.prepareOperation url (.obj fs) = .ok (.obj (insertPy fs
          "servers" (.arr (servers ++ [.obj [("url", url)]])))))) := by
  constructor
  · intro sch url sch2 h
    unfold SchemasMerger.prepare_server_for_schema at h
    rcases bindOk.mp h with ⟨pv, hpv, h2⟩
    rcases bindOk.mp h2 with ⟨its, hits, h3⟩
    rcases bindOk.mp h3 with ⟨nps, hnps, h4⟩
    by_cases hT : pyTruthy pv = true
    · rw [if_pos hT] at h4
      rw [pureOk] at h4
      subst h4
      obtain ⟨fsS, rfl, hlook⟩ := dpathGet1_ok_iff.mp hpv
      have hoe : orEmptyFalsy pv = pv := by simp [orEmptyFalsy, hT]
      rw [hoe] at hits
      obtain rfl : pv = Json.obj its := asItems_ok_iff.mp hits
      obtain ⟨i0, irest, rfl⟩ : ∃ i0 irest, its = i0 :: irest := by
        cases its with
        | nil => simp [pyTruthy] at hT
        | cons i0 irest => exact ⟨i0, irest, rfl⟩
      obtain ⟨n0, nrest, hnpseq⟩ : ∃ n0 nrest, nps = n0 :: nrest := by
        cases hnp : nps with
        | nil =>
          rw [hnp] at hnps
          exact absurd rfl (exMap_ok_ne_nil hnps)
        | cons n0 nrest => exact ⟨n0, nrest, rfl⟩
      have hset : jsonSetTop (.obj fsS) "paths" (.obj nps) =
          .obj (insertPy fsS "paths" (.obj nps)) := by
        simp [jsonSetTop, containsJ_of_lookupJ_some hlook]
      rw [hset]
      unfold SchemasMerger.prepare_server_for_schema
      have hget2 : dpathGet1 (.obj (insertPy fsS "paths" (.obj nps))) "paths" =
          .ok (.obj nps) := by
        simp [dpathGet1, lookupJ_insertPy_self]
      rw [hget2, okBind]
      have hT2 : pyTruthy (Json.obj nps) = true := by
        rw [hnpseq]
        rfl
      have hoe2 : orEmptyFalsy (Json.obj nps) = Json.obj nps := by
        simp [orEmptyFalsy, hT2]
      rw [hoe2]
      simp only [asItems, okBind]
      rw [exMap_id_of (SchemasMerger.preparePathEntry url) nps (by
        intro p hp
        obtain ⟨a, _, hfa⟩ := exMap_mem_right hnps hp
        exact preparePathEntry_idem url a p hfa)]
      rw [okBind, if_pos hT2]
      rw [pureOk]
      simp [jsonSetTop, containsJ_insertPy_self, insertPy_insertPy_same]
    · rw [if_neg hT] at h4
      rw [pureOk] at h4
      subst h4
      unfold SchemasMerger.prepare_server_for_schema
      rw [hpv, okBind, hits, okBind, hnps, okBind, if_neg hT]
      rfl
  · intro url fs servers hl
    have hens : SchemasMerger.ensureServers fs = fs :=
      ensureServers_of_contains (containsJ_of_lookupJ_some hl)
    constructor
    · intro hex
      simp only [SchemasMerger.prepareOperation]
      rw [hens, hl]
      simp only [Option.getD_some]
      rw [hex]
      rfl
    · intro hex
      simp only [SchemasMerger.prepareOperation]
      rw [hens, hl]
      simp only [Option.getD_some]
      rw [hex]
      rfl

/-- C5 witness: stamping a one-operation schema once and then again with
the same url yields the same document, and the append-condition at a
concrete operation. -/
theorem C5_server_stamping_idempotent_witness :
    (SchemasMerger.prepare_server_for_schema
      (.obj [("paths", .obj [("/u", .obj [("get", .obj [])])])]) (.str "http://a") =
      .ok (.obj [("paths", .obj [("/u", .obj [("get", .obj
        [("servers", .arr [.obj [("url", .str "http://a")]])])])])]) ∧
    SchemasMerger.prepare_server_for_schema
      (.obj [("paths", .obj [("/u", .obj [("get", .obj
        [("servers", .arr [.obj [("url", .str "http://a")]])])])])]) (.str "http://a") =
      .ok (.obj [("paths", .obj [("/u", .obj [("get", .obj
        [("servers", .arr [.obj [("url", .str "http://a")]])])])])])) ∧
    (lookupJ [("servers", Json.arr [.obj [("url", .str "http://a")]])] "servers" =
      some (.arr [.obj [("url", .str "http://a")]]) ∧
    SchemasMerger.serverExists (.str "http://a")
      [.obj [("url", .str "http://a")]] = .ok true ∧
    SchemasMerger.prepareOperation (.str "http://a")
      (.obj [("servers", Json.arr [.obj [("url", .str "http://a")]])]) =
      .ok (.obj [("servers", Json.arr [.obj [("url", .str "http://a")]])])) := by
  refine ⟨⟨rfl, ?_⟩, rfl, rfl, ?_⟩
  · exact C5_server_stamping_idempotent.1
      (.obj [("paths", .obj [("/u", .obj [("get", .obj [])])])]) (.str "http://a") _ rfl
  · exact (C5_server_stamping_idempotent.2 (.str "http://a")
      [("servers", Json.arr [.obj [("url", .str "http://a")]])]
      [.obj [("url", .str "http://a")]] rfl).1 rfl

/-! Infrastructure for C6: the grouping transform. -/

/-- A document-wide tag after grouping: `"name"` becomes
`"<source> | <old name>"` (total restatement of the in-place mutation). -/
def renameTagD (name : String) (t : Json) : Json :=
  match t with
  | .obj fs =>
    match lookupJ fs "name" with
    | some v => .obj (insertPy fs "name" (.str (name ++ " | " ++ pyStr v)))
    | none => t
  | _ => t

/-- An operation after grouping: a nonempty tags list collapses to the
single grouped form of its last tag; an empty (or absent) list is left
unchanged. -/
def collapseTagsD (name : String) (op : Json) : Json :=
  match op with
  | .obj fs =>
    match iterElems ((lookupJ fs "tags").getD (.arr [])) with
    | .ok elems =>
      match elems.getLast? with
      | some t => .obj (insertPy fs "tags" (.arr [.str (name ++ " | " ++ pyStr t)]))
      | none => op
    | .error _ => op
  | _ => op

/-- A tag object carrying a `"name"` field. -/
def tagOkB : Json → Bool
  | .obj fs => (lookupJ fs "name").isSome
  | _ => false

/-- An operation object whose `tags` value is a (possibly empty) list. -/
def opOkB : Json → Bool
  | .obj fs =>
    match (lookupJ fs "tags").getD (.arr []) with
    | .arr _ => true
    | _ => false
  | _ => false

theorem groupTag_eq (name : String) (t : Json) (h : tagOkB t = true) :
    SchemasMerger.groupTag name t = .ok (renameTagD name t) := by
  cases t with
  | obj fs =>
    simp only [tagOkB] at h
    cases hl : lookupJ fs "name" with
    | none => rw [hl] at h; cases h
    | some v => simp [SchemasMerger.groupTag, renameTagD, hl]
  | null => cases h
  | bool b => cases h
  | num n => cases h
  | str s => cases h
  | arr xs => cases h

theorem groupOperation_eq (name : String) (op : Json) (h : opOkB op = true) :
    SchemasMerger.groupOperation name op = .ok (collapseTagsD name op) := by
  cases op with
  | obj fs =>
    simp only [opOkB] at h
    cases hv : (lookupJ fs "tags").getD (.arr []) with
    | arr ts =>
      simp only [SchemasMerger.groupOperation, collapseTagsD, hv, iterElems, okBind]
      cases hlast : ts.getLast? with
      | none => simp [hlast]
      | some t => simp [hlast]
    | null => rw [hv] at h; cases h
    | bool b => rw [hv] at h; cases h
    | num n => rw [hv] at h; cases h
    | str s => rw [hv] at h; cases h
    | obj gs => rw [hv] at h; cases h
  | null => cases h
  | bool b => cases h
  | num n => cases h
  | str s => cases h
  | arr xs => cases h

theorem groupOpEntry_eq (name : String) (q : String × Json)
    (h : opOkB q.2 = true) :
    SchemasMerger.groupOpEntry name q = .ok (q.1, collapseTagsD name q.2) := by
  unfold SchemasMerger.groupOpEntry
  rw [groupOperation_eq name q.2 h]
  rfl

/-- C6: with grouping enabled, `_prepare_grouping` rewrites every
document-wide tag's name to `"<source name> | <original name>"` and every
operation's tag list to the single grouped form of its last tag
(collapsing multi-tag operations; an operation with an empty tag list is
left unchanged). -/
theorem C6_grouping_rewrites_tags (sch : Json) (name : String)
    (tags : List Json) (pitems : List (String × Json))
    (htags : jsonGetTop sch "tags" = some (.arr tags))
    (hwt : ∀ t ∈ tags, tagOkB t = true)
    (hpaths : jsonGetTop sch "paths" = some (.obj pitems))
    (hwp : ∀ p ∈ pitems, ∃ ops, p.2 = Json.obj ops ∧ ∀ q ∈ ops, opOkB q.2 = true) :
    SchemasMerger.prepare_grouping sch name =
      .ok (jsonSetTop (jsonSetTop sch "tags" (.arr (tags.map (renameTagD name))))
        "paths" (.obj (pitems.map (fun p =>
          (p.1, Json.obj ((SchemasMerger.objFieldsD p.2).map (fun q =>
            (q.1, collapseTagsD name q.2)))))))) := by
  have h1 : SchemasMerger.prepareGroupingTags sch name =
      .ok (jsonSetTop sch "tags" (.arr (tags.map (renameTagD name)))) := by
    unfold SchemasMerger.prepareGroupingTags
    rw [htags]
    simp only [iterElems, okBind]
    rw [exMap_eq_map_of (SchemasMerger.groupTag name) (renameTagD name) tags
      (fun t ht => groupTag_eq name t (hwt t ht))]
    rfl
  have h2 : SchemasMerger.prepareGroupingPaths
      (jsonSetTop sch "tags" (.arr (tags.map (renameTagD name)))) name =
      .ok (jsonSetTop (jsonSetTop sch "tags" (.arr (tags.map (renameTagD name))))
        "paths" (.obj (pitems.map (fun p =>
          (p.1, Json.obj ((SchemasMerger.objFieldsD p.2).map (fun q =>
            (q.1, collapseTagsD name q.2)))))))) := by
    unfold SchemasMerger.prepareGroupingPaths
    rw [jsonGetTop_jsonSetTop_ne sch "tags" "paths" _ (by decide), hpaths]
    simp only [asItems, okBind]
    rw [exMap_eq_map_of (SchemasMerger.groupPathEntry name)
      (fun p => (p.1, Json.obj ((SchemasMerger.objFieldsD p.2).map (fun q =>
        (q.1, collapseTagsD name q.2))))) pitems (by
      intro p hp
      obtain ⟨ops, hops, hwq⟩ := hwp p hp
      unfold SchemasMerger.groupPathEntry
      rw [hops]
      simp only [asItems, okBind]
      rw [exMap_eq_map_of (SchemasMerger.groupOpEntry name)
        (fun q => (q.1, collapseTagsD name q.2)) ops
        (fun q hq => groupOpEntry_eq name q (hwq q hq))]
      simp [hops, SchemasMerger.objFieldsD])]
    rfl
  unfold SchemasMerger.prepare_grouping
  rw [h1, okBind, h2]

/-- C6 witness: tag `Users` on source `billing` becomes `billing | Users`
in the document-wide tags list and in the operation's tag list. -/
theorem C6_grouping_rewrites_tags_witness :
    jsonGetTop (.obj [("tags", .arr [.obj [("name", .str "Users")]]),
      ("paths", .obj [("/u", .obj [("get", .obj
        [("tags", .arr [.str "Users"])])])])]) "tags" =
      some (.arr [.obj [("name", .str "Users")]]) ∧
    SchemasMerger.prepare_grouping
      (.obj [("tags", .arr [.obj [("name", .str "Users")]]),
        ("paths", .obj [("/u", .obj [("get", .obj
          [("tags", .arr [.str "Users"])])])])]) "billing" =
      .ok (.obj [("tags", .arr [.obj [("name", .str "billing | Users")]]),
        ("paths", .obj [("/u", .obj [("get", .obj
          [("tags", .arr [.str "billing | Users"])])])])]) := by
  constructor
  · rfl
  · rw [C6_grouping_rewrites_tags
      (.obj [("tags", .arr [.obj [("name", .str "Users")]]),
        ("paths", .obj [("/u", .obj [("get", .obj
          [("tags", .arr [.str "Users"])])])])]) "billing"
      [.obj [("name", .str "Users")]]
      [("/u", .obj [("get", .obj [("tags", .arr [.str "Users"])])])]
      rfl (by intro t ht; fin_cases ht; rfl) rfl
      (by
        intro p hp
        fin_cases hp
        exact ⟨[("get", .obj [("tags", .arr [.str "Users"])])], rfl,
          by intro q hq; fin_cases hq; rfl⟩)]
    rfl

/-! Infrastructure for C7 and C10: what the merge pipeline leaves alone. -/

theorem prepare_server_preserves {sch url s2 : Json} {k : String}
    (h : SchemasMerger.prepare_server_for_schema sch url = .ok s2)
    (hk : k ≠ "paths") : jsonGetTop s2 k = jsonGetTop sch k := by
  unfold SchemasMerger.prepare_server_for_schema at h
  rcases bindOk.mp h with ⟨pv, hpv, h2⟩
  rcases bindOk.mp h2 with ⟨its, hits, h3⟩
  rcases bindOk.mp h3 with ⟨nps, hnps, h4⟩
  by_cases hT : pyTruthy pv = true
  · rw [if_pos hT, pureOk] at h4
    subst h4
    exact jsonGetTop_jsonSetTop_ne sch "paths" k _ hk
  · rw [if_neg hT, pureOk] at h4
    subst h4
    rfl

theorem prepareGroupingTags_preserves {sch s1 : Json} {name : String} {k : String}
    (h : SchemasMerger.prepareGroupingTags sch name = .ok s1)
    (hk : k ≠ "tags") : jsonGetTop s1 k = jsonGetTop sch k := by
  unfold SchemasMerger.prepareGroupingTags at h
  cases htv : jsonGetTop sch "tags" with
  | none =>
    rw [htv, pureOk] at h
    subst h
    rfl
  | some tv =>
    rw [htv] at h
    rcases bindOk.mp h with ⟨elems, helems, h2⟩
    rcases bindOk.mp h2 with ⟨newElems, hnew, h3⟩
    cases tv with
    | arr xs =>
      rw [pureOk] at h3
      subst h3
      exact jsonGetTop_jsonSetTop_ne sch "tags" k _ hk
    | null => rw [pureOk] at h3; subst h3; rfl
    | bool b => rw [pureOk] at h3; subst h3; rfl
    | num n => rw [pureOk] at h3; subst h3; rfl
    | str s => rw [pureOk] at h3; subst h3; rfl
    | obj fs => rw [pureOk] at h3; subst h3; rfl

theorem prepareGroupingPaths_preserves {s1 s2 : Json} {name : String} {k : String}
    (h : SchemasMerger.prepareGroupingPaths s1 name = .ok s2)
    (hk : k ≠ "paths") : jsonGetTop s2 k = jsonGetTop s1 k := by
  unfold SchemasMerger.prepareGroupingPaths at h
  cases hpv : jsonGetTop s1 "paths" with
  | none =>
    rw [hpv, pureOk] at h
    subst h
    rfl
  | some pv =>
    rw [hpv] at h
    rcases bindOk.mp h with ⟨its, hits, h2⟩
    rcases bindOk.mp h2 with ⟨nps, hnps, h3⟩
    rw [pureOk] at h3
    subst h3
    exact jsonGetTop_jsonSetTop_ne s1 "paths" k _ hk

theorem prepare_grouping_preserves {sch s2 : Json} {name : String} {k : String}
    (h : SchemasMerger.prepare_grouping sch name = .ok s2)
    (hk1 : k ≠ "tags") (hk2 : k ≠ "paths") :
    jsonGetTop s2 k = jsonGetTop sch k := by
  unfold SchemasMerger.prepare_grouping at h
  rcases bindOk.mp h with ⟨s1, hs1, h2⟩
  rw [prepareGroupingPaths_preserves h2 hk2,
    prepareGroupingTags_preserves hs1 hk1]

theorem prepOne_preserves {g : Bool} {d d2 : String × Json × Json} {k : String}
    (h : SchemasMerger.prepOne g d = .ok d2)
    (hk1 : k ≠ "paths") (hk2 : g = true → k ≠ "tags") :
    d2.1 = d.1 ∧ d2.2.1 = d.2.1 ∧ jsonGetTop d2.2.2 k = jsonGetTop d.2.2 k := by
  unfold SchemasMerger.prepOne at h
  cases hsch : d.2.2 with
  | null =>
    rw [hsch] at h
    cases h
    refine ⟨rfl, rfl, ?_⟩
    rw [hsch]
  | obj fs =>
    rw [hsch] at h
    rcases bindOk.mp h with ⟨url, hurl, h2⟩
    rcases bindOk.mp h2 with ⟨s1, hs1, h3⟩
    rcases bindOk.mp h3 with ⟨s2, hs2, h4⟩
    rw [pureOk] at h4
    subst h4
    refine ⟨rfl, rfl, ?_⟩
    show jsonGetTop s2 k = _
    unfold SchemasMerger.prepGroupIf at hs2
    cases g with
    | false =>
      rw [if_neg (by simp), pureOk] at hs2
      subst hs2
      exact prepare_server_preserves hs1 hk1
    | true =>
      rw [if_pos rfl] at hs2
      rw [prepare_grouping_preserves hs2 (hk2 rfl) hk1,
        prepare_server_preserves hs1 hk1]
  | bool b =>
    rw [hsch] at h
    rcases bindOk.mp h with ⟨url, hurl, h2⟩
    rcases bindOk.mp h2 with ⟨s1, hs1, h3⟩
    rcases bindOk.mp h3 with ⟨s2, hs2, h4⟩
    rw [pureOk] at h4
    subst h4
    refine ⟨rfl, rfl, ?_⟩
    show jsonGetTop s2 k = _
    unfold SchemasMerger.prepGroupIf at hs2
    cases g with
    | false =>
      rw [if_neg (by simp), pureOk] at hs2
      subst hs2
      exact prepare_server_preserves hs1 hk1
    | true =>
      rw [if_pos rfl] at hs2
      rw [prepare_grouping_preserves hs2 (hk2 rfl) hk1,
        prepare_server_preserves hs1 hk1]
  | num n =>
    rw [hsch] at h
    rcases bindOk.mp h with ⟨url, hurl, h2⟩
    rcases bindOk.mp h2 with ⟨s1, hs1, h3⟩
    rcases bindOk.mp h3 with ⟨s2, hs2, h4⟩
    rw [pureOk] at h4
    subst h4
    refine ⟨rfl, rfl, ?_⟩
    show jsonGetTop s2 k = _
    unfold SchemasMerger.prepGroupIf at hs2
    cases g with
    | false =>
      rw [if_neg (by simp), pureOk] at hs2
      subst hs2
      exact prepare_server_preserves hs1 hk1
    | true =>
      rw [if_pos rfl] at hs2
      rw [prepare_grouping_preserves hs2 (hk2 rfl) hk1,
        prepare_server_preserves hs1 hk1]
  | str s =>
    rw [hsch] at h
    rcases bindOk.mp h with ⟨url, hurl, h2⟩
    rcases bindOk.mp h2 with ⟨s1, hs1, h3⟩
    rcases bindOk.mp h3 with ⟨s2, hs2, h4⟩
    rw [pureOk] at h4
    subst h4
    refine ⟨rfl, rfl, ?_⟩
    show jsonGetTop s2 k = _
    unfold SchemasMerger.prepGroupIf at hs2
    cases g with
    | false =>
      rw [if_neg (by simp), pureOk] at hs2
      subst hs2
      exact prepare_server_preserves hs1 hk1
    | true =>
      rw [if_pos rfl] at hs2
      rw [prepare_grouping_preserves hs2 (hk2 rfl) hk1,
        prepare_server_preserves hs1 hk1]
  | arr xs =>
    rw [hsch] at h
    rcases bindOk.mp h with ⟨url, hurl, h2⟩
    rcases bindOk.mp h2 with ⟨s1, hs1, h3⟩
    rcases bindOk.mp h3 with ⟨s2, hs2, h4⟩
    rw [pureOk] at h4
    subst h4
    refine ⟨rfl, rfl, ?_⟩
    show jsonGetTop s2 k = _
    unfold SchemasMerger.prepGroupIf at hs2
    cases g with
    | false =>
      rw [if_neg (by simp), pureOk] at hs2
      subst hs2
      exact prepare_server_preserves hs1 hk1
    | true =>
      rw [if_pos rfl] at hs2
      rw [prepare_grouping_preserves hs2 (hk2 rfl) hk1,
        prepare_server_preserves hs1 hk1]

theorem foldSet2_preserves (mc : List (String × Json)) (k : String)
    (hk : k ≠ "components") :
    ∀ m : Json, jsonGetTop (mc.foldl (fun m p =>
      jsonSetTop2 m "components" p.1 p.2) m) k = jsonGetTop m k := by
  induction mc with
  | nil => intro m; rfl
  | cons p rest ih =>
    intro m
    rw [List.foldl_cons, ih]
    exact jsonGetTop_jsonSetTop2_ne m "components" p.1 k _ hk

theorem buildMerged_preserves (first : Json) (mp ms mc : List (String × Json))
    (k : String) (hk1 : k ≠ "paths") (hk2 : k ≠ "components") :
    jsonGetTop (SchemasMerger.buildMerged first mp ms mc) k =
      jsonGetTop first k := by
  unfold SchemasMerger.buildMerged
  rw [foldSet2_preserves mc k hk2]
  rw [jsonGetTop_jsonSetTop2_ne _ "components" "schemas" k _ hk2]
  by_cases hc : containsTop (jsonSetTop first "paths" (.obj mp)) "components" = true
  · rw [if_pos hc]
    exact jsonGetTop_jsonSetTop_ne first "paths" k _ hk1
  · rw [if_neg hc]
    rw [jsonGetTop_jsonSetTop_ne _ "components" k _ hk2]
    exact jsonGetTop_jsonSetTop_ne first "paths" k _ hk1

theorem stampMetadata_preserves (cfg m : Json) (k : String) (hk : k ≠ "info") :
    jsonGetTop (SchemasMerger.stampMetadata cfg m) k = jsonGetTop m k := by
  unfold SchemasMerger.stampMetadata
  rw [jsonGetTop_jsonSetTop2_ne _ "info" "version" k _ hk,
    jsonGetTop_jsonSetTop2_ne _ "info" "description" k _ hk,
    jsonGetTop_jsonSetTop2_ne _ "info" "title" k _ hk]

/-- The effect of one `dpath.set(m, "info/<k>", v)` on the value at
`info`: a dict that has `k` gets `k` overwritten; a dict without `k`, a
non-dict value, and an absent key are all left untouched. -/
def stampStep (k : String) (v : Json) : Option Json → Option Json
  | some (.obj gs) => some (.obj (if containsJ gs k then insertPy gs k v else gs))
  | o => o

/-- What the metadata block does to the `info` value, per field: each of
`title`, `description`, `version` that exists in the info dict is
overwritten with the configured value (with the literal defaults
`"Merged API"`, `""`, `"1.0.0"`); a missing field stays missing, and an
absent (or non-dict) `info` stays as it was. -/
def stampInfoOpt (cfg : Json) (o : Option Json) : Option Json :=
  stampStep "version" (SchemasMerger.cfgVersion cfg)
    (stampStep "description" (SchemasMerger.cfgDescription cfg)
      (stampStep "title" (SchemasMerger.cfgTitle cfg) o))

theorem jsonGetTop_jsonSetTop2_stamp (m : Json) (k1 k2 : String) (v : Json) :
    jsonGetTop (jsonSetTop2 m k1 k2 v) k1 = stampStep k2 v (jsonGetTop m k1) := by
  cases m with
  | obj fs =>
    cases hl : lookupJ fs k1 with
    | none => simp [jsonSetTop2, jsonGetTop, hl, stampStep]
    | some w =>
      cases w with
      | obj gs =>
        by_cases hc : containsJ gs k2 = true
        · simp [jsonSetTop2, jsonGetTop, hl, hc, stampStep, lookupJ_insertPy_self]
        · simp [jsonSetTop2, jsonGetTop, hl, hc, stampStep]
      | null => simp [jsonSetTop2, jsonGetTop, hl, stampStep]
      | bool b => simp [jsonSetTop2, jsonGetTop, hl, stampStep]
      | num n => simp [jsonSetTop2, jsonGetTop, hl, stampStep]
      | str s => simp [jsonSetTop2, jsonGetTop, hl, stampStep]
      | arr xs => simp [jsonSetTop2, jsonGetTop, hl, stampStep]
  | null => simp [jsonSetTop2, jsonGetTop, stampStep]
  | bool b => simp [jsonSetTop2, jsonGetTop, stampStep]
  | num n => simp [jsonSetTop2, jsonGetTop, stampStep]
  | str s => simp [jsonSetTop2, jsonGetTop, stampStep]
  | arr xs => simp [jsonSetTop2, jsonGetTop, stampStep]

theorem stampMetadata_info_general (cfg m : Json) :
    jsonGetTop (SchemasMerger.stampMetadata cfg m) "info" =
      stampInfoOpt cfg (jsonGetTop m "info") := by
  unfold SchemasMerger.stampMetadata stampInfoOpt
  rw [jsonGetTop_jsonSetTop2_stamp, jsonGetTop_jsonSetTop2_stamp,
    jsonGetTop_jsonSetTop2_stamp]

/-- Inversion of a successful `merge` on a non-empty list: every stage
succeeded and the result is the stamped, tag-adjusted build of the
prepared first document. -/
theorem merge_cons_inv {cfg : Json} {d : String × Json × Json}
    {rest : List (String × Json × Json)} {g : Bool} {m : Json}
    (h : SchemasMerger.merge cfg (d :: rest) g = .ok m) :
    ∃ pd prest mp ms mc withTags,
      SchemasMerger.prepOne g d = .ok pd ∧
      exMap (SchemasMerger.prepOne g) rest = .ok prest ∧
      SchemasMerger.merge_paths (pd :: prest) = .ok mp ∧
      SchemasMerger.merge_schemas (pd :: prest) = .ok ms ∧
      SchemasMerger.merge_components (pd :: prest) = .ok mc ∧
      SchemasMerger.mergeTagsIf g (pd :: prest)
        (SchemasMerger.buildMerged pd.2.2 mp ms mc) = .ok withTags ∧
      m = SchemasMerger.stampMetadata cfg withTags := by
  have h2 : (do
      let prepared ← exMap (SchemasMerger.prepOne g) (d :: rest)
      let mp ← SchemasMerger.merge_paths prepared
      let ms ← SchemasMerger.merge_schemas prepared
      let mc ← SchemasMerger.merge_components prepared
      let first := ((prepared.head?.map (fun d => d.2.2)).getD .null)
      let base := SchemasMerger.buildMerged first mp ms mc
      let withTags ← SchemasMerger.mergeTagsIf g prepared base
      pure (SchemasMerger.stampMetadata cfg withTags) :
        Except PyErr Json) = .ok m := h
  rcases bindOk.mp h2 with ⟨P, hP, h3⟩
  rw [exMap_cons] at hP
  rcases bindOk.mp hP with ⟨pd, hpd, hP2⟩
  rcases bindOk.mp hP2 with ⟨prest, hprest, hP3⟩
  rw [pureOk] at hP3
  subst hP3
  rcases bindOk.mp h3 with ⟨mp, hmp, h4⟩
  rcases bindOk.mp h4 with ⟨ms, hms, h5⟩
  rcases bindOk.mp h5 with ⟨mc, hmc, h6⟩
  rcases bindOk.mp h6 with ⟨withTags, hwt, h7⟩
  rw [pureOk] at h7
  exact ⟨pd, prest, mp, ms, mc, withTags, hpd, hprest, hmp, hms, hmc, hwt, h7.symm⟩

theorem mergeTagsIf_preserves {g : Bool} {prepared : List (String × Json × Json)}
    {base withTags : Json} {k : String}
    (h : SchemasMerger.mergeTagsIf g prepared base = .ok withTags)
    (hk : k ≠ "tags") : jsonGetTop withTags k = jsonGetTop base k := by
  unfold SchemasMerger.mergeTagsIf at h
  cases g with
  | false =>
    rw [if_neg (by simp), pureOk] at h
    subst h
    rfl
  | true =>
    rw [if_pos rfl] at h
    rcases bindOk.mp h with ⟨ts, hts, h2⟩
    rw [pureOk] at h2
    subst h2
    exact jsonGetTop_jsonSetTop_ne base "tags" k _ hk

/-- C7 (amended): after a successful merge of a non-empty input, the
merged document's `info` value is exactly `stampInfoOpt` of the first
document's `info` value: each of `info.title`, `info.description`,
`info.version` that already exists in the base (first) document's `info`
dict is overwritten with the configured value (defaults `"Merged API"`,
`""`, `"1.0.0"`); a field absent from the base `info` stays absent, and an
absent (or non-dict) `info` is left untouched, because `dpath.set` only
assigns to existing paths.  No hypotheses on the shape of `info`: the
per-field and wholly-absent cases are all instances. -/
theorem C7_metadata_stamped_when_present (cfg : Json)
    (S : List (String × Json × Json)) (g : Bool) (m : Json)
    (d0 : String × Json × Json)
    (hm : SchemasMerger.merge cfg S g = .ok m)
    (hhead : S.head? = some d0) :
    jsonGetTop m "info" = stampInfoOpt cfg (jsonGetTop d0.2.2 "info") := by
  cases S with
  | nil => cases hhead
  | cons d rest =>
    have hd0 : d0 = d := by
      simp only [List.head?] at hhead
      cases hhead
      rfl
    subst hd0
    obtain ⟨pd, prest, mp, ms, mc, withTags, hpd, hprest, hmp, hms, hmc, hwt, rfl⟩ :=
      merge_cons_inv hm
    have hpres := (prepOne_preserves hpd (k := "info") (by decide)
      (fun _ => by decide)).2.2
    have hbase := buildMerged_preserves pd.2.2 mp ms mc "info"
      (by decide) (by decide)
    have hwt2 := mergeTagsIf_preserves hwt (k := "info") (by decide)
    rw [stampMetadata_info_general, hwt2, hbase, hpres]

/-- C7 counterexample: the claim says the three `info` fields are
overwritten regardless of what the first document contained.  For a first
document with no `info` key at all, the merged document still has no
`info` key: `dpath.set` cannot create the missing path, so no title is
stamped. -/
theorem C7_counterexample :
    SchemasMerger.merge (.obj [])
      [("svc", .obj [("url", .str "http://u")],
        .obj [("paths", .obj []), ("components", .obj [("schemas", .obj [])])])]
      false =
      .ok (.obj [("paths", .obj []), ("components", .obj [("schemas", .obj [])])]) ∧
    jsonGetTop (.obj [("paths", Json.obj []),
      ("components", Json.obj [("schemas", Json.obj [])])]) "info" = none := by
  exact ⟨rfl, rfl⟩

/-- C10: with grouping disabled, the merged document's top-level `tags`
field is exactly the first document's `tags` field inherited from the base
copy (later documents' tags are dropped; the tag-concatenation step runs
only under grouping). -/
theorem C10_tags_inherited_when_not_grouping (cfg : Json)
    (S : List (String × Json × Json)) (m : Json) (d0 : String × Json × Json)
    (hm : SchemasMerger.merge cfg S false = .ok m)
    (hhead : S.head? = some d0) :
    jsonGetTop m "tags" = jsonGetTop d0.2.2 "tags" := by
  cases S with
  | nil => cases hhead
  | cons d rest =>
    have hd0 : d0 = d := by
      simp only [List.head?] at hhead
      cases hhead
      rfl
    subst hd0
    obtain ⟨pd, prest, mp, ms, mc, withTags, hpd, hprest, hmp, hms, hmc, hwt, rfl⟩ :=
      merge_cons_inv hm
    have hpres := (prepOne_preserves hpd (k := "tags") (by decide)
      (fun hg => by cases hg)).2.2
    have hbase := buildMerged_preserves pd.2.2 mp ms mc "tags"
      (by decide) (by decide)
    have hstamp := stampMetadata_preserves cfg withTags "tags" (by decide)
    have hwt2 : jsonGetTop withTags "tags" =
        jsonGetTop (SchemasMerger.buildMerged pd.2.2 mp ms mc) "tags" := by
      unfold SchemasMerger.mergeTagsIf at hwt
      rw [if_neg (by simp), pureOk] at hwt
      subst hwt
      rfl
    rw [hstamp, hwt2, hbase, hpres]

/-- C7 witness: a mixed-presence instance — the first document's `info`
has `title` and `version` but no `description`; the merged `info` has the
default title and version stamped over them while `description` stays
absent. -/
theorem C7_metadata_stamped_when_present_witness :
    SchemasMerger.merge (.obj [])
      [("svc", .obj [("url", .str "http://u")],
        .obj [("info", .obj [("title", .str "A"), ("version", .str "0.1")]),
          ("paths", .obj []), ("components", .obj [("schemas", .obj [])])])]
      false =
      .ok (.obj [("info", .obj [("title", .str "Merged API"),
        ("version", .str "1.0.0")]),
        ("paths", .obj []), ("components", .obj [("schemas", .obj [])])]) ∧
    jsonGetTop (.obj [("info", Json.obj [("title", .str "Merged API"),
      ("version", .str "1.0.0")]),
      ("paths", Json.obj []), ("components", Json.obj [("schemas", Json.obj [])])])
      "info" =
      stampInfoOpt (.obj [])
        (jsonGetTop (.obj [("info", Json.obj [("title", .str "A"),
          ("version", .str "0.1")]),
          ("paths", Json.obj []),
          ("components", Json.obj [("schemas", Json.obj [])])]) "info") ∧
    jsonGetTop (.obj [("info", Json.obj [("title", .str "Merged API"),
      ("version", .str "1.0.0")]),
      ("paths", Json.obj []), ("components", Json.obj [("schemas", Json.obj [])])])
      "info" =
      some (.obj [("title", .str "Merged API"), ("version", .str "1.0.0")]) := by
  refine ⟨rfl, ?_, rfl⟩
  exact C7_metadata_stamped_when_present (.obj [])
    [("svc", .obj [("url", .str "http://u")],
      .obj [("info", .obj [("title", .str "A"), ("version", .str "0.1")]),
        ("paths", .obj []), ("components", .obj [("schemas", .obj [])])])]
    false
    (.obj [("info", .obj [("title", .str "Merged API"),
      ("version", .str "1.0.0")]),
      ("paths", .obj []), ("components", .obj [("schemas", .obj [])])])
    ("svc", .obj [("url", .str "http://u")],
      .obj [("info", .obj [("title", .str "A"), ("version", .str "0.1")]),
        ("paths", .obj []), ("components", .obj [("schemas", .obj [])])])
    rfl rfl

/-- C10 witness: two documents with tags `T1` and `T2`, grouping disabled:
the merged document (whose paths were merged and server-stamped) carries
exactly the first document's tags, and `T2` is dropped. -/
theorem C10_tags_inherited_when_not_grouping_witness :
    SchemasMerger.merge (.obj [])
      [("a", .obj [("url", .str "http://a")],
        .obj [("paths", .obj [("/x", .obj [("get", .obj [])])]),
          ("components", .obj [("schemas", .obj [])]),
          ("tags", .arr [.obj [("name", .str "T1")]])]),
       ("b", .obj [("url", .str "http://b")],
        .obj [("paths", .obj [("/y", .obj [("post", .obj [])])]),
          ("components", .obj [("schemas", .obj [])]),
          ("tags", .arr [.obj [("name", .str "T2")]])])] false =
      .ok (.obj [("paths", .obj [
          ("/x", .obj [("get", .obj [("servers", .arr [.obj [("url", .str "http://a")]])])]),
          ("/y", .obj [("post", .obj [("servers", .arr [.obj [("url", .str "http://b")]])])])]),
        ("components", .obj [("schemas", .obj [])]),
        ("tags", .arr [.obj [("name", .str "T1")]])]) ∧
    jsonGetTop (.obj [("paths", Json.obj [
        ("/x", .obj [("get", .obj [("servers", .arr [.obj [("url", .str "http://a")]])])]),
        ("/y", .obj [("post", .obj [("servers", .arr [.obj [("url", .str "http://b")]])])])]),
      ("components", Json.obj [("schemas", Json.obj [])]),
      ("tags", Json.arr [.obj [("name", .str "T1")]])]) "tags" =
      jsonGetTop (.obj [("paths", Json.obj [("/x", .obj [("get", .obj [])])]),
        ("components", Json.obj [("schemas", Json.obj [])]),
        ("tags", Json.arr [.obj [("name", .str "T1")]])]) "tags" ∧
    jsonGetTop (.obj [("paths", Json.obj [("/x", .obj [("get", .obj [])])]),
      ("components", Json.obj [("schemas", Json.obj [])]),
      ("tags", Json.arr [.obj [("name", .str "T1")]])]) "tags" =
      some (.arr [.obj [("name", .str "T1")]]) := by
  refine ⟨rfl, ?_, rfl⟩
  exact C10_tags_inherited_when_not_grouping (.obj [])
    [("a", .obj [("url", .str "http://a")],
      .obj [("paths", .obj [("/x", .obj [("get", .obj [])])]),
        ("components", .obj [("schemas", .obj [])]),
        ("tags", .arr [.obj [("name", .str "T1")]])]),
     ("b", .obj [("url", .str "http://b")],
      .obj [("paths", .obj [("/y", .obj [("post", .obj [])])]),
        ("components", .obj [("schemas", .obj [])]),
        ("tags", .arr [.obj [("name", .str "T2")]])])]
    (.obj [("paths", .obj [
        ("/x", .obj [("get", .obj [("servers", .arr [.obj [("url", .str "http://a")]])])]),
        ("/y", .obj [("post", .obj [("servers", .arr [.obj [("url", .str "http://b")]])])])]),
      ("components", .obj [("schemas", .obj [])]),
      ("tags", .arr [.obj [("name", .str "T1")]])])
    ("a", .obj [("url", .str "http://a")],
      .obj [("paths", .obj [("/x", .obj [("get", .obj [])])]),
        ("components", .obj [("schemas", .obj [])]),
        ("tags", .arr [.obj [("name", .str "T1")]])])
    rfl rfl

end SpecMesh
